import Mathlib

/-!
Shallow embedding of `src/utils/geometry.ts` (parking-layout validator).

Coordinates are embedded as rationals (`ℚ`): every JavaScript number that can
occur in a layout is a finite IEEE-754 double, hence a rational.  The only
real-valued computation in the source is the trigonometry inside `getCorners`
(`Math.cos` / `Math.sin` of the rotation angle), so corner points live in `ℝ`
and the separating-axis test is stated over `ℝ`; everything else (spatial grid,
bounding-box arithmetic, id bookkeeping, BFS) stays in `ℚ` and is executable.

The SAT kernel is defined once over an arbitrary linear ordered field so that
the real-valued instance used by the program can be transported to the
executable rational instance when all corner points are rational (rotation 0
or 90 degrees).
-/

namespace Parking

/-- Mirror of the `LayoutElement` interface (`src/types`, `part_004`):
`id`, `type` (a string from the `ElementType` vocabulary), position, size and
an optional rotation in degrees.  The optional `label`/`subType` fields are
never read by `geometry.ts` and are omitted. -/
structure LayoutElement where
  id : String
  type : String
  x : ℚ
  y : ℚ
  width : ℚ
  height : ℚ
  rotation : Option ℚ
  deriving DecidableEq, Repr

/-- Mirror of `ParkingLayout`: canvas bounds plus the element list. -/
structure ParkingLayout where
  width : ℚ
  height : ℚ
  elements : List LayoutElement
  deriving DecidableEq, Repr

/-- Mirror of `ConstraintViolation`: `elementId`, optional `targetId`, the
violation kind string (`'overlap' | 'out_of_bounds' | ...`) and the message. -/
structure ConstraintViolation where
  elementId : String
  targetId : Option String
  type : String
  message : String
  deriving DecidableEq, Repr

/-- String values of the `ElementType` enum (`part_004`). -/
def tGROUND : String := "ground"
def tPARKING : String := "parking_space"
def tROAD : String := "driving_lane"
def tSIDEWALK : String := "pedestrian_path"
def tRAMP : String := "slope"
def tPILLAR : String := "pillar"
def tWALL : String := "wall"
def tBUILDING : String := "building"
def tENTRANCE : String := "entrance"
def tEXIT : String := "exit"
def tSTAIRCASE : String := "staircase"
def tELEVATOR : String := "elevator"
def tCHARGING : String := "charging_station"
def tSIGN : String := "guidance_sign"
def tSAFE_EXIT : String := "safe_exit"
def tSPEED_BUMP : String := "deceleration_zone"
def tFIRE_EXT : String := "fire_extinguisher"
def tLANE_LINE : String := "ground_line"
def tMIRROR : String := "convex_mirror"

section SatKernel

variable {K : Type} [LinearOrderedField K]

/-- Corner list of an axis-aligned rectangle, in the source's order
(top-left, top-right, bottom-right, bottom-left). -/
def boxPts (x y w h : K) : List (K × K) :=
  [(x, y), (x + w, y), (x + w, y + h), (x, y + h)]

/-- Projections of a point list onto the axis `(nx, ny)` (the dot products
computed inside the SAT loops of `isPolygonsIntersecting`). -/
def projVals (nx ny : K) (ps : List (K × K)) : List K :=
  ps.map fun p => nx * p.1 + ny * p.2

/-- Minimum of a list (the `minA`/`minB` fold of the source; the source
initialises with `Infinity`, which over a nonempty list equals folding from
the first element; the empty case is unreachable behind the length guard). -/
def listMin : List K → K
  | [] => 0
  | v :: vs => vs.foldl min v

/-- Maximum of a list (the `maxA`/`maxB` fold of the source). -/
def listMax : List K → K
  | [] => 0
  | v :: vs => vs.foldl max v

/-- The edges `(p_j, p_{(j+1) mod n})` of a polygon, exactly the index pairs
enumerated by the SAT loops. -/
def edgePairs (poly : List (K × K)) : List ((K × K) × (K × K)) :=
  poly.zip (poly.rotate 1)

/-- Whether the axis `(nx, ny)` separates the projections of `a` and `b`
(the `maxA < minB || maxB < minA` early exit of the source). -/
def axisSeparates (nx ny : K) (a b : List (K × K)) : Bool :=
  decide (listMax (projVals nx ny a) < listMin (projVals nx ny b) ∨
    listMax (projVals nx ny b) < listMin (projVals nx ny a))

/-- The per-edge body of the SAT loops: skip a degenerate normal (`continue`
in the source), otherwise require that the axis does not separate. -/
def axisOk (nx ny : K) (a b : List (K × K)) : Bool :=
  if nx = 0 ∧ ny = 0 then true
  else ! axisSeparates nx ny a b

/-- Generic separating-axis test, a direct translation of
`isPolygonsIntersecting` in `geometry.ts`: guard on fewer than 3 vertices;
for every edge of both polygons compute the normal `(dy, -dx)`, skip
degenerate edges, and fail exactly when some normal separates the projected
intervals. -/
def satPoly (a b : List (K × K)) : Bool :=
  if a.length < 3 ∨ b.length < 3 then false
  else
    (edgePairs a ++ edgePairs b).all fun e =>
      axisOk (e.2.2 - e.1.2) (e.1.1 - e.2.1) a b

end SatKernel

/-- Cast a rational point to a real point. -/
def castPt (p : ℚ × ℚ) : ℝ × ℝ := ((p.1 : ℝ), (p.2 : ℝ))

/-- `el.rotation || 0` of the source. -/
def rotationD (el : LayoutElement) : ℚ := el.rotation.getD 0

/-- Mirror of `getCorners`: rotate the four box corners about the centre by
`rotation` degrees.  The per-call memoisation cache of the source is a pure
observational optimisation and is not modelled. -/
noncomputable def getCorners (el : LayoutElement) : List (ℝ × ℝ) :=
  let rad : ℝ := ((rotationD el : ℝ) * Real.pi) / 180
  let cx : ℝ := (el.x : ℝ) + (el.width : ℝ) / 2
  let cy : ℝ := (el.y : ℝ) + (el.height : ℝ) / 2
  (boxPts (el.x : ℝ) (el.y : ℝ) (el.width : ℝ) (el.height : ℝ)).map fun p =>
    (cx + (p.1 - cx) * Real.cos rad - (p.2 - cy) * Real.sin rad,
     cy + (p.1 - cx) * Real.sin rad + (p.2 - cy) * Real.cos rad)

/-- The program's SAT test (`isPolygonsIntersecting`) at real points. -/
noncomputable def isPolygonsIntersecting (a b : List (ℝ × ℝ)) : Bool :=
  satPoly a b

/-- Mirror of `isOverlapping`: padded AABB prefilter (pad 2) followed by the
exact SAT test; `&&` preserves the source's early `return false`. -/
noncomputable def isOverlapping (road item : LayoutElement) : Bool :=
  (decide (item.x + item.width ≥ road.x - 2 ∧
      item.x ≤ road.x + road.width + 2 ∧
      item.y + item.height ≥ road.y - 2 ∧
      item.y ≤ road.y + road.height + 2)) &&
    isPolygonsIntersecting (getCorners road) (getCorners item)

/-- Mirror of `isTouching`. -/
noncomputable def isTouching (a b : LayoutElement) : Bool :=
  isPolygonsIntersecting (getCorners a) (getCorners b)

/-- Mirror of `getIntersectionBox`: the axis-aligned intersection rectangle
of the unrotated boxes, or `none` when empty; returned as `(x, y, w, h)`. -/
def getIntersectionBox (r1 r2 : LayoutElement) : Option (ℚ × ℚ × ℚ × ℚ) :=
  let x1 := max r1.x r2.x
  let y1 := max r1.y r2.y
  let x2 := min (r1.x + r1.width) (r2.x + r2.width)
  let y2 := min (r1.y + r1.height) (r2.y + r2.height)
  if x1 < x2 ∧ y1 < y2 then some (x1, y1, x2 - x1, y2 - y1) else none

/-- Integer range `[lo, hi]` (empty when `hi < lo`), the index set of the
source's `for (let x = startX; x <= endX; x++)` loops. -/
def intRange (lo hi : ℤ) : List ℤ :=
  (List.range (hi + 1 - lo).toNat).map fun i : ℕ => lo + (i : ℤ)

/-- Mirror of `SpatialGrid.getKeysForElement` for cell size 100 (the size the
validator constructs): all grid cells covered by the unrotated bounding box. -/
def keysFor (el : LayoutElement) : List (ℤ × ℤ) :=
  (intRange ⌊el.x / 100⌋ ⌊(el.x + el.width) / 100⌋).flatMap fun kx =>
    (intRange ⌊el.y / 100⌋ ⌊(el.y + el.height) / 100⌋).map fun ky => (kx, ky)

/-- The bucket of a grid cell after all elements of `els` have been added, in
insertion order (each `add` pushes the element to every covered cell). -/
def bucketOf (els : List LayoutElement) (k : ℤ × ℤ) : List LayoutElement :=
  els.filter fun el => decide (k ∈ keysFor el)

/-- First-occurrence deduplication, the insertion-order semantics of the
JavaScript `Set` used for the candidate collection. -/
def dedupFirst {α : Type} [DecidableEq α] (l : List α) : List α :=
  l.foldl (fun acc a => if a ∈ acc then acc else acc ++ [a]) []

/-- Mirror of `SpatialGrid.getPotentialCollisions`: union of the buckets of
the element's cells, excluding the element's own id, deduplicated. -/
def getPotentialCollisions (els : List LayoutElement) (el : LayoutElement) :
    List LayoutElement :=
  dedupFirst (((keysFor el).flatMap (bucketOf els)).filter fun c =>
    decide (c.id ≠ el.id))

/-- Violation kind strings of the source. -/
def vOOB : String := "out_of_bounds"
def vOVERLAP : String := "overlap"
def vINVALID : String := "invalid_dimension"
def vPLACEMENT : String := "placement_error"
def vCONN : String := "connectivity_error"

/-- Message of the per-entrance reachability failure. -/
def noPathMsg : String := "No drivable path exists from this Entrance to any Exit."

/-- Message of the missing-entrance global violation. -/
def needEntranceMsg : String := "Must have at least one Entrance."

/-- Message of the missing-exit global violation. -/
def needExitMsg : String := "Must have at least one Exit."

/-- The `solidTypes` set of the overlap pass. -/
def solidTypes : List String :=
  [tPARKING, tPILLAR, tWALL, tSTAIRCASE, tELEVATOR, tROAD, tRAMP]

/-- The `itemsOnRoad` set (must be placed on a road). -/
def itemsOnRoad : List String :=
  [tSIGN, tSIDEWALK, tSPEED_BUMP, tLANE_LINE, tMIRROR]

/-- The `itemsNotOnRoad` set (must not overlap a road). -/
def itemsNotOnRoad : List String :=
  [tSTAIRCASE, tELEVATOR, tSAFE_EXIT, tFIRE_EXT, tENTRANCE, tEXIT, tRAMP]

/-- The `navigableTypes` set of the connectivity pass. -/
def navigableTypes : List String := [tROAD, tRAMP, tENTRANCE, tEXIT]

/-- Step 1 of `validateLayout`: out-of-bounds check.  The unrotated-AABB
quick test guards the precise rotated-corner test, exactly as in the source. -/
noncomputable def boundsPass (L : ParkingLayout) : List ConstraintViolation :=
  L.elements.filterMap fun el =>
    if el.x < 0 ∨ el.x + el.width > L.width ∨ el.y < 0 ∨ el.y + el.height > L.height then
      if (getCorners el).any (fun p =>
          decide (p.1 < 0 ∨ p.1 > (L.width : ℝ) ∨ p.2 < 0 ∨ p.2 > (L.height : ℝ))) then
        some ⟨el.id, none, vOOB, "Element is outside boundary."⟩
      else none
    else none

/-- The body run for one candidate `el2` of `el1` in the overlap pass:
id-order guard, solid filter, type-pair skip table, the strict ramp/road
intersection-box rule, and otherwise the distance prefilter plus SAT. -/
noncomputable def overlapCheck (el1 el2 : LayoutElement) : Option ConstraintViolation :=
  if el1.id ≥ el2.id then none
  else if el2.type ∉ solidTypes then none
  else if el1.type = tWALL ∧ el2.type = tWALL then none
  else if el1.type = tROAD ∧ el2.type = tROAD then none
  else if (el1.type = tPILLAR ∧ el2.type = tWALL) ∨ (el2.type = tPILLAR ∧ el1.type = tWALL) then none
  else if (el1.type = tRAMP ∧ el2.type = tROAD) ∨ (el2.type = tRAMP ∧ el1.type = tROAD) then
    match getIntersectionBox el1 el2 with
    | some (_, _, w, h) =>
        if w > 2 ∧ h > 2 then
          some ⟨el1.id, some el2.id, vOVERLAP, "Ramp and Road must not overlap."⟩
        else none
    | none => none
  else
    if (el1.x - el2.x) ^ 2 + (el1.y - el2.y) ^ 2 <
        (max el1.width el1.height + max el2.width el2.height) ^ 2 then
      if isPolygonsIntersecting (getCorners el1) (getCorners el2) then
        some ⟨el1.id, some el2.id, vOVERLAP,
          el1.type ++ " overlaps with " ++ el2.type⟩
      else none
    else none

/-- Step 2 of `validateLayout`: overlap checks among solid elements using the
spatial grid's candidate sets. -/
noncomputable def overlapPass (L : ParkingLayout) : List ConstraintViolation :=
  (L.elements.filter fun e => decide (e.type ∈ solidTypes)).flatMap fun el1 =>
    (getPotentialCollisions L.elements el1).filterMap (overlapCheck el1)

/-- The road candidates near an element (`getPotentialCollisions` filtered to
roads), used by the placement and adjacency passes. -/
def nearbyRoads (L : ParkingLayout) (item : LayoutElement) : List LayoutElement :=
  (getPotentialCollisions L.elements item).filter fun c => decide (c.type = tROAD)

/-- Step 3 of `validateLayout`: placement dependency (must be on a road) and
placement restriction (must not be on a road), executed per element in the
source's order. -/
noncomputable def placementPass (L : ParkingLayout) : List ConstraintViolation :=
  L.elements.flatMap fun item =>
    (if item.type ∈ itemsOnRoad then
      if ! (nearbyRoads L item).any (fun road => isOverlapping road item) then
        [⟨item.id, none, vPLACEMENT, item.type ++ " must be placed on a Driving Lane."⟩]
      else []
    else []) ++
    (if item.type ∈ itemsNotOnRoad then
      if ((nearbyRoads L item).any fun road => isOverlapping road item) ∧ item.type ≠ tSIDEWALK then
        [⟨item.id, none, vPLACEMENT, item.type ++ " must NOT overlap a Driving Lane."⟩]
      else []
    else [])

/-- Gates (entrances and exits) of a layout. -/
def gatesOf (L : ParkingLayout) : List LayoutElement :=
  L.elements.filter fun e => decide (e.type = tENTRANCE ∨ e.type = tEXIT)

/-- Step 4 of `validateLayout`: every gate must touch a ramp. -/
noncomputable def gatesPass (L : ParkingLayout) : List ConstraintViolation :=
  (gatesOf L).filterMap fun gate =>
    if ! ((getPotentialCollisions L.elements gate).filter fun c =>
        decide (c.type = tRAMP)).any (fun r => isTouching r gate) then
      some ⟨gate.id, none, vCONN, gate.type ++ " must be adjacent to a Ramp."⟩
    else none

/-- Step 5 of `validateLayout`: every ramp must touch a road. -/
noncomputable def rampsPass (L : ParkingLayout) : List ConstraintViolation :=
  (L.elements.filter fun e => decide (e.type = tRAMP)).filterMap fun ramp =>
    if ! (nearbyRoads L ramp).any (fun road => isTouching road ramp) then
      some ⟨ramp.id, none, vCONN, "Ramp must connect to a Driving Lane."⟩
    else none

/-- Navigable elements (nodes of the reachability graph). -/
def navigablesOf (L : ParkingLayout) : List LayoutElement :=
  L.elements.filter fun e => decide (e.type ∈ navigableTypes)

/-- Append `v` to the adjacency list of `k` (the `adj.get(k)?.push(v)` of the
source, with the map modelled as a total function defaulting to `[]`, which is
exactly the `adj.get(curr) || []` read). -/
def appendNbr (m : String → List String) (k v : String) : String → List String :=
  fun k' => if k' = k then m k' ++ [v] else m k'

/-- The adjacency map of the navigation graph: for every navigable element,
every navigable grid candidate with larger id that passes SAT contributes an
undirected edge. -/
noncomputable def adjMap (L : ParkingLayout) : String → List String :=
  (navigablesOf L).foldl
    (fun m el1 =>
      ((getPotentialCollisions L.elements el1).filter fun e =>
          decide (e.type ∈ navigableTypes)).foldl
        (fun m2 el2 =>
          if el1.id < el2.id ∧
              isPolygonsIntersecting (getCorners el1) (getCorners el2) = true then
            appendNbr (appendNbr m2 el1.id el2.id) el2.id el1.id
          else m2)
        m)
    (fun _ => [])

/-- `layout.elements.find(e => e.id === curr)`. -/
def findById (L : ParkingLayout) (i : String) : Option LayoutElement :=
  L.elements.find? fun e => decide (e.id = i)

/-- The BFS loop of the connectivity pass: dequeue, succeed when the dequeued
element is an exit, otherwise enqueue unvisited neighbours.  Structured on a
fuel argument; the fuel passed by `bfsFound` exceeds the largest possible
number of dequeues (each enqueue marks a fresh navigable id as visited, so at
most `1 + navigables.length` dequeues ever happen). -/
def bfsAux (find : String → Option LayoutElement) (adj : String → List String) :
    ℕ → List String → List String → Bool
  | 0, _, _ => false
  | _ + 1, [], _ => false
  | fuel + 1, curr :: rest, visited =>
    if (match find curr with
        | some e => decide (e.type = tEXIT)
        | none => false) then true
    else
      let step := (adj curr).foldl
        (fun (p : List String × List String) n =>
          if n ∈ p.1 then p else (p.1 ++ [n], p.2 ++ [n]))
        (visited, [])
      bfsAux find adj fuel (rest ++ step.2) step.1

/-- Whether the BFS from entrance `ent` dequeues an exit (`foundExit`). -/
noncomputable def bfsFound (L : ParkingLayout) (ent : LayoutElement) : Bool :=
  bfsAux (findById L) (adjMap L) ((navigablesOf L).length + 2) [ent.id] [ent.id]

/-- Entrances of a layout. -/
def entrancesOf (L : ParkingLayout) : List LayoutElement :=
  L.elements.filter fun e => decide (e.type = tENTRANCE)

/-- Exits of a layout. -/
def exitsOf (L : ParkingLayout) : List LayoutElement :=
  L.elements.filter fun e => decide (e.type = tEXIT)

/-- Step 6 of `validateLayout`: per-entrance reachability; a violation is
emitted when the BFS fails and the layout has at least one exit. -/
noncomputable def connectivityPass (L : ParkingLayout) : List ConstraintViolation :=
  if (navigablesOf L).length > 0 then
    (entrancesOf L).filterMap fun ent =>
      if bfsFound L ent = false ∧ (exitsOf L).length > 0 then
        some ⟨ent.id, none, vCONN, noPathMsg⟩
      else none
  else []

/-- Step 7 of `validateLayout`: global entrance/exit cardinality. -/
def globalPass (L : ParkingLayout) : List ConstraintViolation :=
  (if (entrancesOf L).length < 1 then [⟨"global", none, vCONN, needEntranceMsg⟩] else []) ++
  (if (exitsOf L).length < 1 then [⟨"global", none, vCONN, needExitMsg⟩] else [])

/-- Mirror of `validateLayout`: the passes run in order, each appending its
violations. -/
noncomputable def validateLayout (L : ParkingLayout) : List ConstraintViolation :=
  boundsPass L ++ overlapPass L ++ placementPass L ++ gatesPass L ++
    rampsPass L ++ connectivityPass L ++ globalPass L

/-! ### Transporting the real-valued SAT kernel to the rational instance -/

theorem projVals_cast (nx ny : ℚ) (ps : List (ℚ × ℚ)) :
    projVals ((nx : ℝ)) ((ny : ℝ)) (ps.map castPt) =
      (projVals nx ny ps).map (fun q => ((q : ℚ) : ℝ)) := by
  simp only [projVals, List.map_map]
  refine List.map_congr_left fun p _ => ?_
  simp only [Function.comp, castPt]
  push_cast
  ring

theorem foldl_min_cast (vs : List ℚ) (v : ℚ) :
    (vs.map fun q => ((q : ℚ) : ℝ)).foldl min ((v : ℝ)) = ((vs.foldl min v : ℚ) : ℝ) := by
  induction vs generalizing v with
  | nil => simp
  | cons a l ih =>
    simp only [List.map_cons, List.foldl_cons, ← Rat.cast_min, ih]

theorem foldl_max_cast (vs : List ℚ) (v : ℚ) :
    (vs.map fun q => ((q : ℚ) : ℝ)).foldl max ((v : ℝ)) = ((vs.foldl max v : ℚ) : ℝ) := by
  induction vs generalizing v with
  | nil => simp
  | cons a l ih =>
    simp only [List.map_cons, List.foldl_cons, ← Rat.cast_max, ih]

theorem listMin_cast (l : List ℚ) :
    listMin (l.map fun q => ((q : ℚ) : ℝ)) = ((listMin l : ℚ) : ℝ) := by
  cases l with
  | nil => simp [listMin]
  | cons v vs => simpa [listMin] using foldl_min_cast vs v

theorem listMax_cast (l : List ℚ) :
    listMax (l.map fun q => ((q : ℚ) : ℝ)) = ((listMax l : ℚ) : ℝ) := by
  cases l with
  | nil => simp [listMax]
  | cons v vs => simpa [listMax] using foldl_max_cast vs v

theorem axisSeparates_cast (nx ny : ℚ) (a b : List (ℚ × ℚ)) :
    axisSeparates ((nx : ℝ)) ((ny : ℝ)) (a.map castPt) (b.map castPt) =
      axisSeparates nx ny a b := by
  simp only [axisSeparates, projVals_cast, listMin_cast, listMax_cast, Rat.cast_lt]

theorem edgePairs_cast (a : List (ℚ × ℚ)) :
    edgePairs (a.map castPt) = (edgePairs a).map fun e => (castPt e.1, castPt e.2) := by
  simp only [edgePairs, ← List.map_rotate, List.zip_map]
  rfl

theorem list_all_congr {α : Type} (l : List α) (f g : α → Bool)
    (h : ∀ x ∈ l, f x = g x) : l.all f = l.all g := by
  induction l with
  | nil => rfl
  | cons a t ih =>
    simp only [List.all_cons, h a (List.mem_cons_self a t),
      ih fun x hx => h x (List.mem_cons_of_mem a hx)]

theorem list_all_map {α β : Type} (l : List α) (f : α → β) (p : β → Bool) :
    (l.map f).all p = l.all fun x => p (f x) := by
  induction l with
  | nil => rfl
  | cons a t ih => simp only [List.map_cons, List.all_cons, ih]

theorem axisOk_cast (nx ny : ℚ) (a b : List (ℚ × ℚ)) :
    axisOk ((nx : ℝ)) ((ny : ℝ)) (a.map castPt) (b.map castPt) = axisOk nx ny a b := by
  unfold axisOk
  rw [axisSeparates_cast]
  simp only [Rat.cast_eq_zero]

theorem satPoly_cast (a b : List (ℚ × ℚ)) :
    satPoly (a.map castPt) (b.map castPt) = satPoly a b := by
  simp only [satPoly, List.length_map]
  split
  · rfl
  · rw [edgePairs_cast a, edgePairs_cast b, ← List.map_append, list_all_map]
    refine list_all_congr _ _ _ fun e _ => ?_
    simp only [castPt]
    have hnx : ((e.2.2 : ℚ) : ℝ) - ((e.1.2 : ℚ) : ℝ) = (((e.2.2 - e.1.2 : ℚ) : ℚ) : ℝ) := by
      push_cast; ring
    have hny : ((e.1.1 : ℚ) : ℝ) - ((e.2.1 : ℚ) : ℝ) = (((e.1.1 - e.2.1 : ℚ) : ℚ) : ℝ) := by
      push_cast; ring
    rw [hnx, hny, axisOk_cast]

/-! ### Corner evaluation at the rotations used by the claims -/

theorem boxPts_cast (x y w h : ℚ) :
    boxPts ((x : ℝ)) ((y : ℝ)) ((w : ℝ)) ((h : ℝ)) = (boxPts x y w h).map castPt := by
  simp only [boxPts, castPt, List.map_cons, List.map_nil]
  push_cast
  rfl

/-- With rotation 0 the corners are the unrotated box corners. -/
theorem getCorners_rot0 (el : LayoutElement) (h : rotationD el = 0) :
    getCorners el = (boxPts el.x el.y el.width el.height).map castPt := by
  unfold getCorners
  rw [h]
  simp only [Rat.cast_zero, zero_mul, zero_div, Real.cos_zero, Real.sin_zero,
    mul_one, mul_zero, sub_zero, add_zero]
  rw [boxPts_cast, List.map_map]
  refine List.map_congr_left fun p _ => ?_
  simp only [Function.comp]
  obtain ⟨p1, p2⟩ := castPt p
  refine Prod.ext ?_ ?_ <;> simp

/-- Rational-valued corners of a 90-degree rotated element. -/
def rot90Pts (el : LayoutElement) : List (ℚ × ℚ) :=
  (boxPts el.x el.y el.width el.height).map fun p =>
    (el.x + el.width / 2 + (el.y + el.height / 2) - p.2,
     el.y + el.height / 2 - (el.x + el.width / 2) + p.1)

/-- With rotation 90 the corners are the box corners rotated a quarter turn
about the centre, still rational points. -/
theorem getCorners_rot90 (el : LayoutElement) (h : rotationD el = 90) :
    getCorners el = (rot90Pts el).map castPt := by
  unfold getCorners
  rw [h]
  have hrad : ((90 : ℚ) : ℝ) * Real.pi / 180 = Real.pi / 2 := by
    push_cast
    ring
  rw [hrad]
  simp only [Real.cos_pi_div_two, Real.sin_pi_div_two, mul_one, mul_zero,
    sub_zero, add_zero, zero_add]
  rw [boxPts_cast, List.map_map]
  unfold rot90Pts
  rw [List.map_map]
  refine List.map_congr_left fun p _ => ?_
  simp only [Function.comp, castPt]
  refine Prod.ext ?_ ?_ <;> push_cast <;> ring

/-- The program's SAT test on two unrotated elements is the executable
rational SAT test on their box corners. -/
theorem isPoly_rot0 (a b : LayoutElement) (ha : rotationD a = 0) (hb : rotationD b = 0) :
    isPolygonsIntersecting (getCorners a) (getCorners b) =
      satPoly (boxPts a.x a.y a.width a.height) (boxPts b.x b.y b.width b.height) := by
  unfold isPolygonsIntersecting
  rw [getCorners_rot0 a ha, getCorners_rot0 b hb, satPoly_cast]

/-! ### Closed-form evaluation of the SAT test on rectangles -/

theorem rotate_one_four {α : Type} (p q r s : α) :
    ([p, q, r, s] : List α).rotate 1 = [q, r, s, p] := by
  simp [List.rotate]

theorem edgePairs_four {K : Type} (p q r s : K × K) :
    edgePairs [p, q, r, s] = [(p, q), (q, r), (r, s), (s, p)] := by
  rw [edgePairs, rotate_one_four]
  rfl

section SatEval

variable {K : Type} [LinearOrderedField K]

theorem listMin_four (a b c d : K) : listMin [a, b, c, d] = min (min (min a b) c) d := rfl

theorem listMax_four (a b c d : K) : listMax [a, b, c, d] = max (max (max a b) c) d := rfl

theorem satPoly_four_iff (p1 p2 p3 p4 q1 q2 q3 q4 : K × K) :
    satPoly [p1, p2, p3, p4] [q1, q2, q3, q4] = true ↔
      (axisOk (p2.2 - p1.2) (p1.1 - p2.1) [p1, p2, p3, p4] [q1, q2, q3, q4] = true ∧
       axisOk (p3.2 - p2.2) (p2.1 - p3.1) [p1, p2, p3, p4] [q1, q2, q3, q4] = true ∧
       axisOk (p4.2 - p3.2) (p3.1 - p4.1) [p1, p2, p3, p4] [q1, q2, q3, q4] = true ∧
       axisOk (p1.2 - p4.2) (p4.1 - p1.1) [p1, p2, p3, p4] [q1, q2, q3, q4] = true ∧
       axisOk (q2.2 - q1.2) (q1.1 - q2.1) [p1, p2, p3, p4] [q1, q2, q3, q4] = true ∧
       axisOk (q3.2 - q2.2) (q2.1 - q3.1) [p1, p2, p3, p4] [q1, q2, q3, q4] = true ∧
       axisOk (q4.2 - q3.2) (q3.1 - q4.1) [p1, p2, p3, p4] [q1, q2, q3, q4] = true ∧
       axisOk (q1.2 - q4.2) (q4.1 - q1.1) [p1, p2, p3, p4] [q1, q2, q3, q4] = true) := by
  rw [satPoly]
  rw [if_neg (by simp)]
  rw [edgePairs_four, edgePairs_four]
  simp only [List.cons_append, List.nil_append, List.all_cons, List.all_nil,
    Bool.and_eq_true, Bool.and_true, and_assoc]

theorem min_uuvv_ge (u v : K) (h : v ≤ u) : min (min (min u u) v) v = v := by
  rw [min_self, min_eq_right h, min_self]

theorem max_uuvv_ge (u v : K) (h : v ≤ u) : max (max (max u u) v) v = u := by
  rw [max_self, max_eq_left h, max_eq_left h]

theorem min_uuvv_le (u v : K) (h : u ≤ v) : min (min (min u u) v) v = u := by
  rw [min_self, min_eq_left h, min_eq_left h]

theorem max_uuvv_le (u v : K) (h : u ≤ v) : max (max (max u u) v) v = v := by
  rw [max_self, max_eq_right h, max_self]

theorem min_uvvu_le (u v : K) (h : u ≤ v) : min (min (min u v) v) u = u := by
  rw [min_eq_left h, min_eq_left h, min_self]

theorem max_uvvu_le (u v : K) (h : u ≤ v) : max (max (max u v) v) u = v := by
  rw [max_eq_right h, max_self, max_eq_left h]

theorem min_uvvu_ge (u v : K) (h : v ≤ u) : min (min (min u v) v) u = v := by
  rw [min_eq_right h, min_self, min_eq_left h]

theorem max_uvvu_ge (u v : K) (h : v ≤ u) : max (max (max u v) v) u = u := by
  rw [max_eq_left h, max_eq_left h, max_self]

theorem projVals_vert (c : K) (ps : List (K × K)) :
    projVals 0 (-c) ps = ps.map fun p => -(c * p.2) := by
  unfold projVals
  refine List.map_congr_left fun p _ => by ring

theorem projVals_vert' (c : K) (ps : List (K × K)) :
    projVals 0 c ps = ps.map fun p => c * p.2 := by
  unfold projVals
  refine List.map_congr_left fun p _ => by ring

theorem projVals_horiz (c : K) (ps : List (K × K)) :
    projVals c 0 ps = ps.map fun p => c * p.1 := by
  unfold projVals
  refine List.map_congr_left fun p _ => by ring

theorem projVals_horiz' (c : K) (ps : List (K × K)) :
    projVals (-c) 0 ps = ps.map fun p => -(c * p.1) := by
  unfold projVals
  refine List.map_congr_left fun p _ => by ring

/-- The SAT check for the axis `(0, -c)` on two rectangles, `c > 0`:
it passes exactly when the `y` intervals overlap. -/
theorem axisOk_vert (c xa ya wa ha xb yb wb hb : K) (hc : 0 < c)
    (hha : 0 ≤ ha) (hhb : 0 ≤ hb) :
    axisOk 0 (-c)
      [(xa, ya), (xa + wa, ya), (xa + wa, ya + ha), (xa, ya + ha)]
      [(xb, yb), (xb + wb, yb), (xb + wb, yb + hb), (xb, yb + hb)] = true ↔
      (ya ≤ yb + hb ∧ yb ≤ ya + ha) := by
  have hcha : -(c * (ya + ha)) ≤ -(c * ya) := by nlinarith
  have hchb : -(c * (yb + hb)) ≤ -(c * yb) := by nlinarith
  rw [axisOk, if_neg (by push_neg; intro h; exact neg_ne_zero.mpr hc.ne')]
  rw [Bool.not_eq_true', axisSeparates, decide_eq_false_iff_not]
  rw [projVals_vert, projVals_vert]
  simp only [List.map_cons, List.map_nil]
  rw [listMin_four, listMax_four, listMin_four, listMax_four]
  rw [min_uuvv_ge _ _ hcha, max_uuvv_ge _ _ hcha,
    min_uuvv_ge _ _ hchb, max_uuvv_ge _ _ hchb]
  rw [not_or, not_lt, not_lt]
  constructor
  · rintro ⟨h1, h2⟩
    constructor <;> nlinarith
  · rintro ⟨h1, h2⟩
    constructor <;> nlinarith

/-- The SAT check for the axis `(0, c)` on two rectangles, `c > 0`. -/
theorem axisOk_vert' (c xa ya wa ha xb yb wb hb : K) (hc : 0 < c)
    (hha : 0 ≤ ha) (hhb : 0 ≤ hb) :
    axisOk 0 c
      [(xa, ya), (xa + wa, ya), (xa + wa, ya + ha), (xa, ya + ha)]
      [(xb, yb), (xb + wb, yb), (xb + wb, yb + hb), (xb, yb + hb)] = true ↔
      (ya ≤ yb + hb ∧ yb ≤ ya + ha) := by
  have hcha : c * ya ≤ c * (ya + ha) := by nlinarith
  have hchb : c * yb ≤ c * (yb + hb) := by nlinarith
  rw [axisOk, if_neg (by push_neg; intro h; exact hc.ne')]
  rw [Bool.not_eq_true', axisSeparates, decide_eq_false_iff_not]
  rw [projVals_vert', projVals_vert']
  simp only [List.map_cons, List.map_nil]
  rw [listMin_four, listMax_four, listMin_four, listMax_four]
  rw [min_uuvv_le _ _ hcha, max_uuvv_le _ _ hcha,
    min_uuvv_le _ _ hchb, max_uuvv_le _ _ hchb]
  rw [not_or, not_lt, not_lt]
  constructor
  · rintro ⟨h1, h2⟩
    constructor <;> nlinarith
  · rintro ⟨h1, h2⟩
    constructor <;> nlinarith

/-- The SAT check for the axis `(c, 0)` on two rectangles, `c > 0`. -/
theorem axisOk_horiz (c xa ya wa ha xb yb wb hb : K) (hc : 0 < c)
    (hwa : 0 ≤ wa) (hwb : 0 ≤ wb) :
    axisOk c 0
      [(xa, ya), (xa + wa, ya), (xa + wa, ya + ha), (xa, ya + ha)]
      [(xb, yb), (xb + wb, yb), (xb + wb, yb + hb), (xb, yb + hb)] = true ↔
      (xa ≤ xb + wb ∧ xb ≤ xa + wa) := by
  have hcwa : c * xa ≤ c * (xa + wa) := by nlinarith
  have hcwb : c * xb ≤ c * (xb + wb) := by nlinarith
  rw [axisOk, if_neg (by push_neg; intro h; exact absurd h hc.ne')]
  rw [Bool.not_eq_true', axisSeparates, decide_eq_false_iff_not]
  rw [projVals_horiz, projVals_horiz]
  simp only [List.map_cons, List.map_nil]
  rw [listMin_four, listMax_four, listMin_four, listMax_four]
  rw [min_uvvu_le _ _ hcwa, max_uvvu_le _ _ hcwa,
    min_uvvu_le _ _ hcwb, max_uvvu_le _ _ hcwb]
  rw [not_or, not_lt, not_lt]
  constructor
  · rintro ⟨h1, h2⟩
    constructor <;> nlinarith
  · rintro ⟨h1, h2⟩
    constructor <;> nlinarith

/-- The SAT check for the axis `(-c, 0)` on two rectangles, `c > 0`. -/
theorem axisOk_horiz' (c xa ya wa ha xb yb wb hb : K) (hc : 0 < c)
    (hwa : 0 ≤ wa) (hwb : 0 ≤ wb) :
    axisOk (-c) 0
      [(xa, ya), (xa + wa, ya), (xa + wa, ya + ha), (xa, ya + ha)]
      [(xb, yb), (xb + wb, yb), (xb + wb, yb + hb), (xb, yb + hb)] = true ↔
      (xa ≤ xb + wb ∧ xb ≤ xa + wa) := by
  have hcwa : -(c * (xa + wa)) ≤ -(c * xa) := by nlinarith
  have hcwb : -(c * (xb + wb)) ≤ -(c * xb) := by nlinarith
  rw [axisOk, if_neg (by push_neg; intro h; exact absurd h (neg_ne_zero.mpr hc.ne'))]
  rw [Bool.not_eq_true', axisSeparates, decide_eq_false_iff_not]
  rw [projVals_horiz', projVals_horiz']
  simp only [List.map_cons, List.map_nil]
  rw [listMin_four, listMax_four, listMin_four, listMax_four]
  rw [min_uvvu_ge _ _ hcwa, max_uvvu_ge _ _ hcwa,
    min_uvvu_ge _ _ hcwb, max_uvvu_ge _ _ hcwb]
  rw [not_or, not_lt, not_lt]
  constructor
  · rintro ⟨h1, h2⟩
    constructor <;> nlinarith
  · rintro ⟨h1, h2⟩
    constructor <;> nlinarith

/-- Closed form of the SAT rectangle test for positive-size axis-aligned
rectangles: the polygons intersect (touching included) exactly when both
coordinate intervals overlap. -/
theorem satPoly_box_iff (xa ya wa ha xb yb wb hb : K)
    (hwa : 0 < wa) (hha : 0 < ha) (hwb : 0 < wb) (hhb : 0 < hb) :
    satPoly (boxPts xa ya wa ha) (boxPts xb yb wb hb) = true ↔
      (xa ≤ xb + wb ∧ xb ≤ xa + wa ∧ ya ≤ yb + hb ∧ yb ≤ ya + ha) := by
  rw [show boxPts xa ya wa ha =
      [(xa, ya), (xa + wa, ya), (xa + wa, ya + ha), (xa, ya + ha)] from rfl,
    show boxPts xb yb wb hb =
      [(xb, yb), (xb + wb, yb), (xb + wb, yb + hb), (xb, yb + hb)] from rfl]
  rw [satPoly_four_iff]
  simp only
  rw [show ya - ya = (0 : K) by ring, show xa - (xa + wa) = -wa by ring,
    show ya + ha - ya = ha by ring, show xa + wa - (xa + wa) = (0 : K) by ring,
    show ya + ha - (ya + ha) = (0 : K) by ring, show xa + wa - xa = wa by ring,
    show ya - (ya + ha) = -ha by ring, show xa - xa = (0 : K) by ring,
    show yb - yb = (0 : K) by ring, show xb - (xb + wb) = -wb by ring,
    show yb + hb - yb = hb by ring, show xb + wb - (xb + wb) = (0 : K) by ring,
    show yb + hb - (yb + hb) = (0 : K) by ring, show xb + wb - xb = wb by ring,
    show yb - (yb + hb) = -hb by ring, show xb - xb = (0 : K) by ring]
  rw [axisOk_vert wa _ _ _ _ _ _ _ _ hwa hha.le hhb.le,
    axisOk_horiz ha _ _ _ _ _ _ _ _ hha hwa.le hwb.le,
    axisOk_vert' wa _ _ _ _ _ _ _ _ hwa hha.le hhb.le,
    axisOk_horiz' ha _ _ _ _ _ _ _ _ hha hwa.le hwb.le,
    axisOk_vert wb _ _ _ _ _ _ _ _ hwb hha.le hhb.le,
    axisOk_horiz hb _ _ _ _ _ _ _ _ hhb hwa.le hwb.le,
    axisOk_vert' wb _ _ _ _ _ _ _ _ hwb hha.le hhb.le,
    axisOk_horiz' hb _ _ _ _ _ _ _ _ hhb hwa.le hwb.le]
  constructor
  · rintro ⟨h1, h2, _⟩
    exact ⟨h2.1, h2.2, h1.1, h1.2⟩
  · rintro ⟨h1, h2, h3, h4⟩
    exact ⟨⟨h3, h4⟩, ⟨h1, h2⟩, ⟨h3, h4⟩, ⟨h1, h2⟩, ⟨h3, h4⟩, ⟨h1, h2⟩, ⟨h3, h4⟩, ⟨h1, h2⟩⟩

end SatEval

/-! ### Element-level SAT characterisations -/

/-- Degenerate axes always pass. -/
theorem axisOk_zero {K : Type} [LinearOrderedField K] (a b : List (K × K)) :
    axisOk (0 : K) 0 a b = true := by
  rw [axisOk, if_pos ⟨rfl, rfl⟩]

/-- Closed form of the SAT test on two horizontal segments (height-0 boxes):
they intersect exactly when they lie on the same horizontal line — the
degenerate horizontal edges are skipped, so the `x` intervals are never
compared. -/
theorem satPoly_seg_iff {K : Type} [LinearOrderedField K] (xa ya wa xb yb wb : K)
    (hwa : 0 < wa) (hwb : 0 < wb) :
    satPoly (boxPts xa ya wa 0) (boxPts xb yb wb 0) = true ↔ (ya ≤ yb ∧ yb ≤ ya) := by
  rw [show boxPts xa ya wa (0 : K) =
      [(xa, ya), (xa + wa, ya), (xa + wa, ya + 0), (xa, ya + 0)] from rfl,
    show boxPts xb yb wb (0 : K) =
      [(xb, yb), (xb + wb, yb), (xb + wb, yb + 0), (xb, yb + 0)] from rfl]
  rw [satPoly_four_iff]
  simp only
  rw [show ya - ya = (0 : K) by ring, show xa - (xa + wa) = -wa by ring,
    show ya + 0 - ya = (0 : K) by ring, show xa + wa - (xa + wa) = (0 : K) by ring,
    show ya + 0 - (ya + 0) = (0 : K) by ring, show xa + wa - xa = wa by ring,
    show ya - (ya + 0) = (0 : K) by ring, show xa - xa = (0 : K) by ring,
    show yb - yb = (0 : K) by ring, show xb - (xb + wb) = -wb by ring,
    show yb + 0 - yb = (0 : K) by ring, show xb + wb - (xb + wb) = (0 : K) by ring,
    show yb + 0 - (yb + 0) = (0 : K) by ring, show xb + wb - xb = wb by ring,
    show yb - (yb + 0) = (0 : K) by ring, show xb - xb = (0 : K) by ring]
  rw [axisOk_zero,
    axisOk_vert wa xa ya wa 0 xb yb wb 0 hwa le_rfl le_rfl,
    axisOk_vert' wa xa ya wa 0 xb yb wb 0 hwa le_rfl le_rfl,
    axisOk_vert wb xa ya wa 0 xb yb wb 0 hwb le_rfl le_rfl,
    axisOk_vert' wb xa ya wa 0 xb yb wb 0 hwb le_rfl le_rfl]
  simp only [add_zero, true_and, and_true, and_self_iff, eq_self_iff_true]

/-- The program-level SAT test on two unrotated, positively-sized elements:
true exactly when the bounding boxes overlap (touching included). -/
theorem isPoly_box_iff (a b : LayoutElement) (ha : rotationD a = 0) (hb : rotationD b = 0)
    (hwa : 0 < a.width) (hha : 0 < a.height) (hwb : 0 < b.width) (hhb : 0 < b.height) :
    isPolygonsIntersecting (getCorners a) (getCorners b) = true ↔
      (a.x ≤ b.x + b.width ∧ b.x ≤ a.x + a.width ∧
       a.y ≤ b.y + b.height ∧ b.y ≤ a.y + a.height) := by
  rw [isPoly_rot0 a b ha hb]
  exact satPoly_box_iff _ _ _ _ _ _ _ _ hwa hha hwb hhb

theorem list_any_map {α β : Type} (l : List α) (f : α → β) (p : β → Bool) :
    (l.map f).any p = l.any fun x => p (f x) := by
  induction l with
  | nil => rfl
  | cons a t ih => simp only [List.map_cons, List.any_cons, ih]

theorem list_any_congr {α : Type} (l : List α) (f g : α → Bool)
    (h : ∀ x ∈ l, f x = g x) : l.any f = l.any g := by
  induction l with
  | nil => rfl
  | cons a t ih =>
    simp only [List.any_cons, h a (List.mem_cons_self a t),
      ih fun x hx => h x (List.mem_cons_of_mem a hx)]

/-- The precise corner test of the bounds pass, transported to rationals for
an unrotated element. -/
theorem boundsCorner_rot0 (el : LayoutElement) (W H : ℚ) (h : rotationD el = 0) :
    ((getCorners el).any fun p =>
        decide (p.1 < 0 ∨ p.1 > (W : ℝ) ∨ p.2 < 0 ∨ p.2 > (H : ℝ))) =
      ((boxPts el.x el.y el.width el.height).any fun p =>
        decide (p.1 < 0 ∨ p.1 > W ∨ p.2 < 0 ∨ p.2 > H)) := by
  rw [getCorners_rot0 el h, list_any_map]
  refine list_any_congr _ _ _ fun p _ => ?_
  simp only [castPt]
  rw [decide_eq_decide]
  constructor
  · rintro (h1 | h1 | h1 | h1)
    · exact Or.inl (by exact_mod_cast h1)
    · exact Or.inr (Or.inl (by exact_mod_cast h1))
    · exact Or.inr (Or.inr (Or.inl (by exact_mod_cast h1)))
    · exact Or.inr (Or.inr (Or.inr (by exact_mod_cast h1)))
  · rintro (h1 | h1 | h1 | h1)
    · exact Or.inl (by exact_mod_cast h1)
    · exact Or.inr (Or.inl (by exact_mod_cast h1))
    · exact Or.inr (Or.inr (Or.inl (by exact_mod_cast h1)))
    · exact Or.inr (Or.inr (Or.inr (by exact_mod_cast h1)))

/-! ### Spatial grid membership -/

theorem mem_intRange {k lo hi : ℤ} : k ∈ intRange lo hi ↔ lo ≤ k ∧ k ≤ hi := by
  unfold intRange
  simp only [List.mem_map, List.mem_range]
  constructor
  · rintro ⟨i, hi1, rfl⟩
    constructor <;> omega
  · rintro ⟨h1, h2⟩
    refine ⟨(k - lo).toNat, by omega, by omega⟩

theorem mem_keysFor {el : LayoutElement} {k : ℤ × ℤ} :
    k ∈ keysFor el ↔
      (⌊el.x / 100⌋ ≤ k.1 ∧ k.1 ≤ ⌊(el.x + el.width) / 100⌋ ∧
       ⌊el.y / 100⌋ ≤ k.2 ∧ k.2 ≤ ⌊(el.y + el.height) / 100⌋) := by
  unfold keysFor
  simp only [List.mem_flatMap, List.mem_map, mem_intRange]
  constructor
  · rintro ⟨kx, ⟨h1, h2⟩, ky, ⟨h3, h4⟩, rfl⟩
    exact ⟨h1, h2, h3, h4⟩
  · rintro ⟨h1, h2, h3, h4⟩
    exact ⟨k.1, ⟨h1, h2⟩, k.2, ⟨h3, h4⟩, rfl⟩

theorem dedupFirst_aux {α : Type} [DecidableEq α] (l acc : List α) (x : α) :
    x ∈ l.foldl (fun acc a => if a ∈ acc then acc else acc ++ [a]) acc ↔
      x ∈ acc ∨ x ∈ l := by
  induction l generalizing acc with
  | nil => simp
  | cons a t ih =>
    simp only [List.foldl_cons, List.mem_cons]
    rw [ih]
    by_cases hmem : a ∈ acc
    · rw [if_pos hmem]
      constructor
      · rintro (h | h)
        · exact Or.inl h
        · exact Or.inr (Or.inr h)
      · rintro (h | h | h)
        · exact Or.inl h
        · exact Or.inl (h ▸ hmem)
        · exact Or.inr h
    · rw [if_neg hmem]
      simp only [List.mem_append, List.mem_singleton]
      tauto

theorem mem_dedupFirst {α : Type} [DecidableEq α] {l : List α} {x : α} :
    x ∈ dedupFirst l ↔ x ∈ l := by
  unfold dedupFirst
  rw [dedupFirst_aux]
  simp

theorem mem_getPotentialCollisions {els : List LayoutElement} {el c : LayoutElement} :
    c ∈ getPotentialCollisions els el ↔
      (c ∈ els ∧ c.id ≠ el.id ∧ ∃ k, k ∈ keysFor el ∧ k ∈ keysFor c) := by
  unfold getPotentialCollisions bucketOf
  rw [mem_dedupFirst]
  simp only [List.mem_filter, List.mem_flatMap, decide_eq_true_eq]
  constructor
  · rintro ⟨⟨k, hk1, hk2⟩, hid⟩
    exact ⟨hk2.1, hid, k, hk1, hk2.2⟩
  · rintro ⟨hmem, hid, k, hk1, hk2⟩
    exact ⟨⟨k, hk1, hmem, hk2⟩, hid⟩

/-- Candidate symmetry: sharing a covered cell is symmetric. -/
theorem getPotentialCollisions_symm {els : List LayoutElement} {a b : LayoutElement}
    (ha : a ∈ els) (hb : b ∈ els) (hid : a.id ≠ b.id) :
    b ∈ getPotentialCollisions els a ↔ a ∈ getPotentialCollisions els b := by
  rw [mem_getPotentialCollisions, mem_getPotentialCollisions]
  constructor
  · rintro ⟨_, _, k, h1, h2⟩
    exact ⟨ha, hid, k, h2, h1⟩
  · rintro ⟨_, _, k, h1, h2⟩
    exact ⟨hb, hid.symm, k, h2, h1⟩

/-! ### Generic counting lemmas for keyed passes -/

/-- Filtering the output of a `filterMap` pass by a key that identifies one
input: only that input's contribution survives, provided the key is unique. -/
theorem filter_filterMap_key {α β γ : Type} [DecidableEq γ] (els : List α)
    (key : α → γ) (f : α → Option β) (kv : β → γ)
    (hf : ∀ e v, f e = some v → kv v = key e)
    (hn : (els.map key).Nodup) (el : α) (hel : el ∈ els)
    (p : β → Bool) (hp : ∀ v, p v = true → kv v = key el) :
    (els.filterMap f).filter p = (f el).toList.filter p := by
  induction els with
  | nil => exact absurd hel (List.not_mem_nil el)
  | cons e t ih =>
    rw [List.map_cons, List.nodup_cons] at hn
    rcases List.mem_cons.mp hel with rfl | helt
    · rw [List.filterMap_cons]
      have htail : (t.filterMap f).filter p = [] := by
        rw [List.filter_eq_nil_iff]
        intro v hv
        obtain ⟨e', he', hfe'⟩ := List.mem_filterMap.mp hv
        intro hpv
        exact hn.1 (hp v hpv ▸ hf e' v hfe' ▸ List.mem_map_of_mem key he')
      cases hfe : f el with
      | none =>
        show (t.filterMap f).filter p = List.filter p []
        rw [htail, List.filter_nil]
      | some v =>
        show (v :: t.filterMap f).filter p = List.filter p [v]
        rw [List.filter_cons, List.filter_cons, htail, List.filter_nil]
    · have hkey : key e ≠ key el := by
        intro hk
        exact hn.1 (hk ▸ List.mem_map_of_mem key helt)
      rw [List.filterMap_cons]
      cases hfe : f e with
      | none => exact ih hn.2 helt
      | some v =>
        have hpv : p v = false := by
          rcases hb : p v with _ | _
          · rfl
          · exact absurd ((hf e v hfe).symm.trans (hp v hb)) hkey
        show (v :: t.filterMap f).filter p = (f el).toList.filter p
        rw [List.filter_cons, hpv]
        exact ih hn.2 helt

/-- `flatMap` analogue of `filter_filterMap_key`. -/
theorem filter_flatMap_key {α β γ : Type} [DecidableEq γ] (els : List α)
    (key : α → γ) (g : α → List β) (kv : β → γ)
    (hg : ∀ e v, v ∈ g e → kv v = key e)
    (hn : (els.map key).Nodup) (el : α) (hel : el ∈ els)
    (p : β → Bool) (hp : ∀ v, p v = true → kv v = key el) :
    (els.flatMap g).filter p = (g el).filter p := by
  induction els with
  | nil => exact absurd hel (List.not_mem_nil el)
  | cons e t ih =>
    rw [List.map_cons, List.nodup_cons] at hn
    rw [List.flatMap_cons, List.filter_append]
    rcases List.mem_cons.mp hel with rfl | helt
    · have htail : (t.flatMap g).filter p = [] := by
        rw [List.filter_eq_nil_iff]
        intro v hv
        obtain ⟨e', he', hve'⟩ := List.mem_flatMap.mp hv
        intro hpv
        exact hn.1 (hp v hpv ▸ hg e' v hve' ▸ List.mem_map_of_mem key he')
      rw [htail, List.append_nil]
    · have hkey : key e ≠ key el := by
        intro hk
        exact hn.1 (hk ▸ List.mem_map_of_mem key helt)
      have hhead : (g e).filter p = [] := by
        rw [List.filter_eq_nil_iff]
        intro v hv hpv
        exact hkey (hg e v hv ▸ hp v hpv)
      rw [hhead, List.nil_append]
      exact ih hn.2 helt

/-- A pass filtered by a predicate that none of its outputs satisfies
contributes nothing. -/
theorem filter_of_none {β : Type} (l : List β) (p : β → Bool)
    (h : ∀ v ∈ l, p v = false) : l.filter p = [] := by
  rw [List.filter_eq_nil_iff]
  intro v hv
  simp [h v hv]

/-! ### Shape of the violations emitted by each pass -/

theorem overlapCheck_shape {e1 e2 : LayoutElement} {v : ConstraintViolation}
    (h : overlapCheck e1 e2 = some v) :
    v.elementId = e1.id ∧ v.targetId = some e2.id ∧ v.type = vOVERLAP ∧ e1.id < e2.id := by
  unfold overlapCheck at h
  by_cases h1 : e1.id ≥ e2.id
  · rw [if_pos h1] at h
    exact absurd h (by simp)
  · rw [if_neg h1] at h
    have hlt : e1.id < e2.id := lt_of_not_ge h1
    split_ifs at h
    · split at h
      · split_ifs at h
        cases h
        exact ⟨rfl, rfl, rfl, hlt⟩
      · exact Option.noConfusion h
    · cases h
      exact ⟨rfl, rfl, rfl, hlt⟩

theorem boundsPass_shape {L : ParkingLayout} {v : ConstraintViolation}
    (h : v ∈ boundsPass L) : v.type = vOOB := by
  obtain ⟨el, _, hfe⟩ := List.mem_filterMap.mp h
  split_ifs at hfe
  cases hfe
  rfl

theorem overlapPass_shape {L : ParkingLayout} {v : ConstraintViolation}
    (h : v ∈ overlapPass L) : v.type = vOVERLAP := by
  obtain ⟨el1, _, hin⟩ := List.mem_flatMap.mp h
  obtain ⟨el2, _, hfe⟩ := List.mem_filterMap.mp hin
  exact (overlapCheck_shape hfe).2.2.1

theorem placementPass_shape {L : ParkingLayout} {v : ConstraintViolation}
    (h : v ∈ placementPass L) : v.type = vPLACEMENT ∧ ∃ el ∈ L.elements,
      v.elementId = el.id ∧
      (v.message = el.type ++ " must be placed on a Driving Lane." ∨
       v.message = el.type ++ " must NOT overlap a Driving Lane.") := by
  obtain ⟨el, hel, hin⟩ := List.mem_flatMap.mp h
  rw [List.mem_append] at hin
  rcases hin with hin | hin <;> split_ifs at hin <;>
    simp only [List.mem_singleton, List.not_mem_nil] at hin
  · subst hin
    exact ⟨rfl, el, hel, rfl, Or.inl rfl⟩
  · subst hin
    exact ⟨rfl, el, hel, rfl, Or.inr rfl⟩

theorem gatesPass_shape {L : ParkingLayout} {v : ConstraintViolation}
    (h : v ∈ gatesPass L) : v.type = vCONN ∧ ∃ el ∈ gatesOf L,
      v.elementId = el.id ∧ v.message = el.type ++ " must be adjacent to a Ramp." := by
  obtain ⟨el, hel, hfe⟩ := List.mem_filterMap.mp h
  split_ifs at hfe
  cases hfe
  exact ⟨rfl, el, hel, rfl, rfl⟩

theorem rampsPass_shape {L : ParkingLayout} {v : ConstraintViolation}
    (h : v ∈ rampsPass L) : v.type = vCONN ∧
      v.message = "Ramp must connect to a Driving Lane." := by
  obtain ⟨el, _, hfe⟩ := List.mem_filterMap.mp h
  split_ifs at hfe
  cases hfe
  exact ⟨rfl, rfl⟩

theorem connectivityPass_shape {L : ParkingLayout} {v : ConstraintViolation}
    (h : v ∈ connectivityPass L) : v.type = vCONN ∧ v.message = noPathMsg := by
  unfold connectivityPass at h
  split_ifs at h
  · obtain ⟨el, _, hfe⟩ := List.mem_filterMap.mp h
    split_ifs at hfe
    cases hfe
    exact ⟨rfl, rfl⟩
  · exact absurd h (List.not_mem_nil v)

theorem globalPass_shape {L : ParkingLayout} {v : ConstraintViolation}
    (h : v ∈ globalPass L) : v.type = vCONN ∧ v.elementId = "global" ∧
      (v.message = needEntranceMsg ∨ v.message = needExitMsg) := by
  unfold globalPass at h
  rw [List.mem_append] at h
  rcases h with h | h <;> split_ifs at h <;>
    simp only [List.mem_singleton, List.not_mem_nil] at h
  · subst h
    exact ⟨rfl, rfl, Or.inl rfl⟩
  · subst h
    exact ⟨rfl, rfl, Or.inr rfl⟩

/-! ### Pass-evaluation helpers for concrete layouts -/

theorem boundsPass_nil (L : ParkingLayout)
    (h : ∀ el ∈ L.elements,
      ¬(el.x < 0 ∨ el.x + el.width > L.width ∨ el.y < 0 ∨ el.y + el.height > L.height)) :
    boundsPass L = [] := by
  unfold boundsPass
  rw [List.filterMap_eq_nil_iff]
  intro el hel
  rw [if_neg (h el hel)]

theorem placementPass_nil (L : ParkingLayout)
    (h : ∀ el ∈ L.elements, el.type ∉ itemsOnRoad ∧ el.type ∉ itemsNotOnRoad) :
    placementPass L = [] := by
  unfold placementPass
  rw [List.flatMap_eq_nil_iff]
  intro el hel
  rw [if_neg (h el hel).1, if_neg (h el hel).2]
  rfl

theorem gatesPass_nil (L : ParkingLayout) (h : gatesOf L = []) : gatesPass L = [] := by
  unfold gatesPass
  rw [h]
  rfl

theorem rampsPass_nil (L : ParkingLayout)
    (h : L.elements.filter (fun e => decide (e.type = tRAMP)) = []) : rampsPass L = [] := by
  unfold rampsPass
  rw [h]
  rfl

theorem connectivityPass_nil (L : ParkingLayout) (h : entrancesOf L = []) :
    connectivityPass L = [] := by
  unfold connectivityPass
  split_ifs
  · rw [h]
    rfl
  · rfl

/-! ### Reducing filtered validator output to the relevant passes -/

theorem gatesOf_type {L : ParkingLayout} {el : LayoutElement} (h : el ∈ gatesOf L) :
    el.type = tENTRANCE ∨ el.type = tEXIT := by
  unfold gatesOf at h
  rw [List.mem_filter] at h
  simpa using h.2

/-- A pass whose violations all carry a type other than the filtered one
contributes nothing. -/
theorem filter_ne_type (l : List ConstraintViolation) {t : String}
    (p : ConstraintViolation → Bool) (hty : ∀ v, p v = true → v.type = t)
    (hl : ∀ v ∈ l, v.type ≠ t) : l.filter p = [] :=
  filter_of_none _ _ fun v hv => by
    rcases hb : p v with _ | _
    · rfl
    · exact absurd (hty v hb) (hl v hv)

/-- For a filter that selects only `connectivity_error` violations whose
message is neither a gate-adjacency nor a ramp-adjacency message, the
validator output reduces to the reachability and global passes. -/
theorem filter_validateLayout_conn (L : ParkingLayout) (p : ConstraintViolation → Bool)
    (hty : ∀ v, p v = true → v.type = vCONN)
    (hmsg : ∀ v, p v = true →
      v.message ≠ "entrance must be adjacent to a Ramp." ∧
      v.message ≠ "exit must be adjacent to a Ramp." ∧
      v.message ≠ "Ramp must connect to a Driving Lane.") :
    (validateLayout L).filter p =
      (connectivityPass L).filter p ++ (globalPass L).filter p := by
  unfold validateLayout
  simp only [List.filter_append]
  rw [filter_ne_type (boundsPass L) p hty fun v hv => by rw [boundsPass_shape hv]; decide,
    filter_ne_type (overlapPass L) p hty fun v hv => by rw [overlapPass_shape hv]; decide,
    filter_ne_type (placementPass L) p hty fun v hv => by
      rw [(placementPass_shape hv).1]; decide]
  have hg : (gatesPass L).filter p = [] := by
    refine filter_of_none _ _ fun v hv => ?_
    rcases hb : p v with _ | _
    · rfl
    · obtain ⟨_, el, hel, _, hm⟩ := gatesPass_shape hv
      rcases gatesOf_type hel with ht | ht <;> rw [ht] at hm
      · exact absurd (by exact hm) (by have := (hmsg v hb).1; simpa using this)
      · exact absurd (by exact hm) (by have := (hmsg v hb).2.1; simpa using this)
  have hr : (rampsPass L).filter p = [] := by
    refine filter_of_none _ _ fun v hv => ?_
    rcases hb : p v with _ | _
    · rfl
    · exact absurd (rampsPass_shape hv).2 (hmsg v hb).2.2
  rw [hg, hr]
  simp

/-! ### Claim C9 -/

/-- C9: for every layout with zero entrance elements, `validateLayout`
produces exactly one `connectivity_error` violation with the sentinel
`elementId = "global"` reporting the missing entrance, and none when an
entrance exists; symmetrically, the absence of any exit yields exactly one
global `connectivity_error` reporting the missing exit. -/
theorem claim_C9 (L : ParkingLayout) :
    (((validateLayout L).filter fun v => decide (v.elementId = "global" ∧
        v.type = vCONN ∧ v.message = needEntranceMsg)).length =
      if entrancesOf L = [] then 1 else 0) ∧
    (((validateLayout L).filter fun v => decide (v.elementId = "global" ∧
        v.type = vCONN ∧ v.message = needExitMsg)).length =
      if exitsOf L = [] then 1 else 0) := by
  have hlen : ∀ l : List LayoutElement, ¬l = [] → ¬l.length < 1 := fun l hne hlt =>
    hne (List.length_eq_zero.mp (Nat.lt_one_iff.mp hlt))
  constructor
  · rw [filter_validateLayout_conn L _
      (fun v hv => by simp only [decide_eq_true_eq] at hv; exact hv.2.1)
      (fun v hv => by
        simp only [decide_eq_true_eq] at hv
        rw [hv.2.2]
        refine ⟨by decide, by decide, by decide⟩)]
    rw [filter_of_none _ _ fun v hv => by
      rw [decide_eq_false_iff_not]
      rintro ⟨_, _, hm⟩
      exact absurd ((connectivityPass_shape hv).2.symm.trans hm) (by decide)]
    rw [List.nil_append]
    unfold globalPass
    rw [List.filter_append]
    by_cases he : entrancesOf L = []
    · rw [if_pos (by rw [he]; decide), if_pos he]
      by_cases hx : exitsOf L = []
      · rw [if_pos (by rw [hx]; decide)]
        simp [needEntranceMsg, needExitMsg, vCONN]
      · rw [if_neg (hlen _ hx)]
        simp [needEntranceMsg, vCONN]
    · rw [if_neg (hlen _ he), if_neg he]
      by_cases hx : exitsOf L = []
      · rw [if_pos (by rw [hx]; decide)]
        simp [needEntranceMsg, needExitMsg, vCONN]
      · rw [if_neg (hlen _ hx)]
        simp
  · rw [filter_validateLayout_conn L _
      (fun v hv => by simp only [decide_eq_true_eq] at hv; exact hv.2.1)
      (fun v hv => by
        simp only [decide_eq_true_eq] at hv
        rw [hv.2.2]
        refine ⟨by decide, by decide, by decide⟩)]
    rw [filter_of_none _ _ fun v hv => by
      rw [decide_eq_false_iff_not]
      rintro ⟨_, _, hm⟩
      exact absurd ((connectivityPass_shape hv).2.symm.trans hm) (by decide)]
    rw [List.nil_append]
    unfold globalPass
    rw [List.filter_append]
    by_cases he : entrancesOf L = []
    · rw [if_pos (by rw [he]; decide)]
      by_cases hx : exitsOf L = []
      · rw [if_pos (by rw [hx]; decide), if_pos hx]
        simp [needEntranceMsg, needExitMsg, vCONN]
      · rw [if_neg (hlen _ hx), if_neg hx]
        simp [needEntranceMsg, needExitMsg, vCONN]
    · rw [if_neg (hlen _ he)]
      by_cases hx : exitsOf L = []
      · rw [if_pos (by rw [hx]; decide), if_pos hx]
        simp [needEntranceMsg, needExitMsg, vCONN]
      · rw [if_neg (hlen _ hx), if_neg hx]
        simp

/-! ### Claim C4 -/

/-- The claim's example rectangle `A = (0,0,10,10)`, rotation 0. -/
def c4A : LayoutElement := ⟨"a", tWALL, 0, 0, 10, 10, some 0⟩

/-- The claim's example rectangle `B = (10,0,10,10)`, rotation 0. -/
def c4B : LayoutElement := ⟨"b", tWALL, 10, 0, 10, 10, some 0⟩

/-- C4: boundary touching counts as intersecting.  Any two unrotated
positively-sized elements sharing an edge (the second starting where the
first ends, with overlapping vertical extents) satisfy both
`isPolygonsIntersecting` on their corners and `isTouching`; in particular the
claim's example pair `A = (0,0,10,10)`, `B = (10,0,10,10)` does. -/
theorem claim_C4 :
    (∀ a b : LayoutElement, rotationD a = 0 → rotationD b = 0 →
      0 < a.width → 0 < a.height → 0 < b.width → 0 < b.height →
      b.x = a.x + a.width → a.y ≤ b.y + b.height → b.y ≤ a.y + a.height →
      isPolygonsIntersecting (getCorners a) (getCorners b) = true ∧
        isTouching a b = true) ∧
    (isPolygonsIntersecting (getCorners c4A) (getCorners c4B) = true ∧
      isTouching c4A c4B = true) := by
  have hgen : ∀ a b : LayoutElement, rotationD a = 0 → rotationD b = 0 →
      0 < a.width → 0 < a.height → 0 < b.width → 0 < b.height →
      b.x = a.x + a.width → a.y ≤ b.y + b.height → b.y ≤ a.y + a.height →
      isPolygonsIntersecting (getCorners a) (getCorners b) = true ∧
        isTouching a b = true := by
    intro a b ha hb hwa hha hwb hhb hedge hy1 hy2
    have hsat : isPolygonsIntersecting (getCorners a) (getCorners b) = true := by
      rw [isPoly_box_iff a b ha hb hwa hha hwb hhb]
      refine ⟨?_, ?_, hy1, hy2⟩
      · rw [hedge]
        nlinarith
      · rw [hedge]
    exact ⟨hsat, hsat⟩
  refine ⟨hgen, hgen c4A c4B rfl rfl (by norm_num [c4A]) (by norm_num [c4A])
    (by norm_num [c4B]) (by norm_num [c4B]) (by norm_num [c4A, c4B])
    (by norm_num [c4A, c4B]) (by norm_num [c4A, c4B])⟩

/-- Witness for C4: the general statement applied to the claim's own
example pair. -/
theorem claim_C4_witness :
    rotationD c4A = 0 ∧ 0 < c4A.width ∧ c4B.x = c4A.x + c4A.width ∧
      isPolygonsIntersecting (getCorners c4A) (getCorners c4B) = true ∧
      isTouching c4A c4B = true :=
  ⟨rfl, by norm_num [c4A], by norm_num [c4A, c4B],
    claim_C4.1 c4A c4B rfl rfl (by norm_num [c4A]) (by norm_num [c4A])
      (by norm_num [c4B]) (by norm_num [c4B]) (by norm_num [c4A, c4B])
      (by norm_num [c4A, c4B]) (by norm_num [c4A, c4B])⟩

/-! ### Uniqueness machinery for the overlap pass -/

theorem dedupFirst_nodup_aux {α : Type} [DecidableEq α] (l acc : List α)
    (h : acc.Nodup) :
    (l.foldl (fun acc a => if a ∈ acc then acc else acc ++ [a]) acc).Nodup := by
  induction l generalizing acc with
  | nil => exact h
  | cons a t ih =>
    rw [List.foldl_cons]
    by_cases hmem : a ∈ acc
    · rw [if_pos hmem]
      exact ih acc h
    · rw [if_neg hmem]
      refine ih _ ?_
      rw [← List.concat_eq_append]
      exact List.Nodup.concat hmem h

theorem dedupFirst_nodup {α : Type} [DecidableEq α] (l : List α) :
    (dedupFirst l).Nodup :=
  dedupFirst_nodup_aux l [] List.nodup_nil

theorem getPotentialCollisions_ids_nodup {els : List LayoutElement}
    (hn : (els.map (·.id)).Nodup) (el : LayoutElement) :
    ((getPotentialCollisions els el).map (·.id)).Nodup := by
  refine List.Nodup.map_on ?_ (dedupFirst_nodup _)
  intro x hx y hy hxy
  exact List.inj_on_of_nodup_map hn (mem_getPotentialCollisions.mp hx).1
    (mem_getPotentialCollisions.mp hy).1 hxy

theorem filter_filterMap_len_le_one {α β γ : Type} [DecidableEq γ] (els : List α)
    (key : α → γ) (f : α → Option β) (kv : β → γ)
    (hf : ∀ e v, f e = some v → kv v = key e)
    (hn : (els.map key).Nodup) (c : γ) (p : β → Bool)
    (hp : ∀ v, p v = true → kv v = c) :
    ((els.filterMap f).filter p).length ≤ 1 := by
  by_cases hex : ∃ el ∈ els, key el = c
  · obtain ⟨el, hel, hkey⟩ := hex
    rw [filter_filterMap_key els key f kv hf hn el hel p
      (fun v hv => (hp v hv).trans hkey.symm)]
    calc ((f el).toList.filter p).length ≤ (f el).toList.length :=
        List.length_filter_le _ _
      _ ≤ 1 := by cases f el <;> simp
  · rw [filter_of_none _ _ fun v hv => ?_]
    · exact Nat.zero_le 1
    · obtain ⟨e, he, hfe⟩ := List.mem_filterMap.mp hv
      rcases hb : p v with _ | _
      · rfl
      · exact absurd ⟨e, he, (hf e v hfe).symm.trans (hp v hb)⟩ hex

theorem filter_flatMap_len_le_one {α β γ : Type} [DecidableEq γ] (els : List α)
    (key : α → γ) (g : α → List β) (kv : β → γ)
    (hg : ∀ e v, v ∈ g e → kv v = key e)
    (hn : (els.map key).Nodup) (c : γ) (p : β → Bool)
    (hp : ∀ v, p v = true → kv v = c)
    (hinner : ∀ el ∈ els, ((g el).filter p).length ≤ 1) :
    ((els.flatMap g).filter p).length ≤ 1 := by
  by_cases hex : ∃ el ∈ els, key el = c
  · obtain ⟨el, hel, hkey⟩ := hex
    rw [filter_flatMap_key els key g kv hg hn el hel p
      (fun v hv => (hp v hv).trans hkey.symm)]
    exact hinner el hel
  · rw [filter_of_none _ _ fun v hv => ?_]
    · exact Nat.zero_le 1
    · obtain ⟨e, he, hve⟩ := List.mem_flatMap.mp hv
      rcases hb : p v with _ | _
      · rfl
      · exact absurd ⟨e, he, (hg e v hve).symm.trans (hp v hb)⟩ hex

/-- For a filter selecting only `overlap` violations, the validator output
reduces to the overlap pass. -/
theorem filter_validateLayout_overlap (L : ParkingLayout) (p : ConstraintViolation → Bool)
    (hty : ∀ v, p v = true → v.type = vOVERLAP) :
    (validateLayout L).filter p = (overlapPass L).filter p := by
  unfold validateLayout
  simp only [List.filter_append]
  rw [filter_ne_type (boundsPass L) p hty fun v hv => by rw [boundsPass_shape hv]; decide,
    filter_ne_type (placementPass L) p hty fun v hv => by
      rw [(placementPass_shape hv).1]; decide,
    filter_ne_type (gatesPass L) p hty fun v hv => by rw [(gatesPass_shape hv).1]; decide,
    filter_ne_type (rampsPass L) p hty fun v hv => by rw [(rampsPass_shape hv).1]; decide,
    filter_ne_type (connectivityPass L) p hty fun v hv => by
      rw [(connectivityPass_shape hv).1]; decide,
    filter_ne_type (globalPass L) p hty fun v hv => by
      rw [(globalPass_shape hv).1]; decide]
  simp

theorem filter_ids_nodup {els : List LayoutElement}
    (hn : (els.map (fun e => e.id)).Nodup) (q : LayoutElement → Bool) :
    ((els.filter q).map (fun e => e.id)).Nodup :=
  hn.sublist ((List.filter_sublist els).map (fun e => e.id))

/-! ### Claim C5 -/

/-- First `parking_space` of the claim's overlap scenario. -/
def c5p1 : LayoutElement := ⟨"p1", tPARKING, 10, 10, 20, 10, some 0⟩

/-- Second `parking_space` of the claim's overlap scenario, same box. -/
def c5p2 : LayoutElement := ⟨"p2", tPARKING, 10, 10, 20, 10, some 0⟩

/-- The claim's 200x200 overlap scenario layout. -/
def c5L : ParkingLayout := ⟨200, 200, [c5p1, c5p2]⟩

theorem c5keys1 : keysFor c5p1 = [(0, 0)] := by
  unfold keysFor c5p1
  norm_num [intRange, List.range_succ]

theorem c5keys2 : keysFor c5p2 = [(0, 0)] := by
  unfold keysFor c5p2
  norm_num [intRange, List.range_succ]

theorem c5cand1 : getPotentialCollisions c5L.elements c5p1 = [c5p2] := by
  unfold getPotentialCollisions bucketOf dedupFirst
  simp [c5keys1, c5keys2, show c5L.elements = [c5p1, c5p2] from rfl]
  simp [c5p1, c5p2, List.filter_cons]

theorem c5cand2 : getPotentialCollisions c5L.elements c5p2 = [c5p1] := by
  unfold getPotentialCollisions bucketOf dedupFirst
  simp [c5keys1, c5keys2, show c5L.elements = [c5p1, c5p2] from rfl]
  simp [c5p1, c5p2, List.filter_cons]

theorem c5sat : isPolygonsIntersecting (getCorners c5p1) (getCorners c5p2) = true := by
  rw [isPoly_box_iff c5p1 c5p2 rfl rfl (by norm_num [c5p1]) (by norm_num [c5p1])
    (by norm_num [c5p2]) (by norm_num [c5p2])]
  norm_num [c5p1, c5p2]

theorem c5check12 : overlapCheck c5p1 c5p2 =
    some ⟨"p1", some "p2", vOVERLAP, tPARKING ++ " overlaps with " ++ tPARKING⟩ := by
  unfold overlapCheck
  rw [if_neg (by simp [c5p1, c5p2]; decide), if_neg (by decide), if_neg (by decide),
    if_neg (by decide), if_neg (by decide), if_neg (by decide),
    if_pos (by norm_num [c5p1, c5p2]), if_pos c5sat]
  rfl

theorem c5check21 : overlapCheck c5p2 c5p1 = none := by
  unfold overlapCheck
  rw [if_pos (by simp [c5p1, c5p2]; decide)]

theorem c5overlap : overlapPass c5L = [⟨"p1", some "p2", vOVERLAP,
    tPARKING ++ " overlaps with " ++ tPARKING⟩] := by
  unfold overlapPass
  rw [show c5L.elements.filter (fun e => decide (e.type ∈ solidTypes)) = [c5p1, c5p2] from rfl]
  simp [c5cand1, c5cand2, c5check12, c5check21]

theorem c5bounds : boundsPass c5L = [] := by
  refine boundsPass_nil _ fun el hel => ?_
  simp only [show c5L.elements = [c5p1, c5p2] from rfl, List.mem_cons,
    List.mem_singleton, List.not_mem_nil, or_false] at hel
  rcases hel with rfl | rfl <;> norm_num [c5p1, c5p2, c5L]

theorem c5val : validateLayout c5L =
    [⟨"p1", some "p2", vOVERLAP, tPARKING ++ " overlaps with " ++ tPARKING⟩,
     ⟨"global", none, vCONN, needEntranceMsg⟩, ⟨"global", none, vCONN, needExitMsg⟩] := by
  unfold validateLayout
  rw [c5bounds, c5overlap, placementPass_nil c5L (fun el hel => by
      simp only [show c5L.elements = [c5p1, c5p2] from rfl, List.mem_cons,
        List.mem_singleton, List.not_mem_nil, or_false] at hel
      rcases hel with rfl | rfl <;> exact ⟨by decide, by decide⟩),
    gatesPass_nil c5L rfl, rampsPass_nil c5L rfl, connectivityPass_nil c5L rfl,
    show globalPass c5L = [⟨"global", none, vCONN, needEntranceMsg⟩,
      ⟨"global", none, vCONN, needExitMsg⟩] from rfl]
  rfl

/-- C5: with unique ids, the overlap pass reports each unordered pair of
solid elements at most once, every `overlap` violation carries the
lexicographically smaller id as `elementId` and the larger as `targetId`;
and the claim's two-identical-parking-space scenario yields exactly the one
`overlap` violation referencing both ids. -/
theorem claim_C5 :
    (∀ L : ParkingLayout, (L.elements.map (fun e => e.id)).Nodup →
      (∀ v ∈ validateLayout L, v.type = vOVERLAP →
        ∃ t, v.targetId = some t ∧ v.elementId < t) ∧
      ∀ a b : String,
        ((validateLayout L).filter fun v => decide (v.type = vOVERLAP ∧
          v.elementId = a ∧ v.targetId = some b)).length ≤ 1) ∧
    ((validateLayout c5L).filter fun v => decide (v.type = vOVERLAP)) =
      [⟨"p1", some "p2", vOVERLAP, tPARKING ++ " overlaps with " ++ tPARKING⟩] := by
  constructor
  · intro L hn
    constructor
    · intro v hv hty
      have hov : v ∈ overlapPass L := by
        have hv' : v ∈ (validateLayout L).filter fun v => decide (v.type = vOVERLAP) :=
          List.mem_filter.mpr ⟨hv, by simp [hty]⟩
        rw [filter_validateLayout_overlap L _
          (fun v hv => by simpa using hv)] at hv'
        exact (List.mem_filter.mp hv').1
      obtain ⟨el1, _, hin⟩ := List.mem_flatMap.mp hov
      obtain ⟨el2, _, hfe⟩ := List.mem_filterMap.mp hin
      obtain ⟨h1, h2, _, h4⟩ := overlapCheck_shape hfe
      exact ⟨el2.id, h2, h1 ▸ h4⟩
    · intro a b
      rw [filter_validateLayout_overlap L _
        (fun v hv => by simp only [decide_eq_true_eq] at hv; exact hv.1)]
      unfold overlapPass
      refine filter_flatMap_len_le_one _ (fun e => e.id) _ (fun v => v.elementId)
        (fun e v hv => ?_) (filter_ids_nodup hn _) a _
        (fun v hv => by simp only [decide_eq_true_eq] at hv; exact hv.2.1)
        (fun el1 _ => ?_)
      · obtain ⟨e2, _, hfe⟩ := List.mem_filterMap.mp hv
        exact (overlapCheck_shape hfe).1
      · refine filter_filterMap_len_le_one _ (fun e => some e.id) _
          (fun v => v.targetId) (fun e v hv => (overlapCheck_shape hv).2.1) ?_
          (some b) _
          (fun v hv => by simp only [decide_eq_true_eq] at hv; exact hv.2.2)
        rw [show (fun e : LayoutElement => some e.id) =
          (fun s : String => some s) ∘ (fun e => e.id) from rfl, ← List.map_map]
        exact (getPotentialCollisions_ids_nodup hn el1).map
          (Option.some_injective String)
  · rw [c5val]
    rfl

/-- Witness for C5: the uniqueness statement applied to the concrete
two-parking-space scenario, whose id list is duplicate-free. -/
theorem claim_C5_witness :
    (c5L.elements.map (fun e => e.id)).Nodup ∧
      ∀ a b : String,
        ((validateLayout c5L).filter fun v => decide (v.type = vOVERLAP ∧
          v.elementId = a ∧ v.targetId = some b)).length ≤ 1 :=
  ⟨by decide, fun a b => (claim_C5.1 c5L (by decide)).2 a b⟩

/-! ### Claim C1 -/

theorem validateLayout_types {L : ParkingLayout} {v : ConstraintViolation}
    (h : v ∈ validateLayout L) :
    v.type = vOOB ∨ v.type = vOVERLAP ∨ v.type = vPLACEMENT ∨ v.type = vCONN := by
  unfold validateLayout at h
  simp only [List.mem_append] at h
  rcases h with ((((((h | h) | h) | h) | h) | h) | h)
  · exact Or.inl (boundsPass_shape h)
  · exact Or.inr (Or.inl (overlapPass_shape h))
  · exact Or.inr (Or.inr (Or.inl (placementPass_shape h).1))
  · exact Or.inr (Or.inr (Or.inr (gatesPass_shape h).1))
  · exact Or.inr (Or.inr (Or.inr (rampsPass_shape h).1))
  · exact Or.inr (Or.inr (Or.inr (connectivityPass_shape h).1))
  · exact Or.inr (Or.inr (Or.inr (globalPass_shape h).1))

/-- An element with negative width, inside a layout that exercises the
validator. -/
def c1bad : LayoutElement := ⟨"bad", tPARKING, 10, 10, -1, 5, some 0⟩

/-- Layout containing only the degenerate element. -/
def c1L : ParkingLayout := ⟨200, 200, [c1bad]⟩

theorem c1cand : getPotentialCollisions c1L.elements c1bad = [] := by
  have hk : keysFor c1bad = [(0, 0)] := by
    unfold keysFor c1bad
    norm_num [intRange, List.range_succ]
  unfold getPotentialCollisions bucketOf dedupFirst
  simp [hk, show c1L.elements = [c1bad] from rfl]

theorem c1val : validateLayout c1L =
    [⟨"global", none, vCONN, needEntranceMsg⟩, ⟨"global", none, vCONN, needExitMsg⟩] := by
  unfold validateLayout
  rw [boundsPass_nil c1L (fun el hel => by
      simp only [show c1L.elements = [c1bad] from rfl, List.mem_singleton] at hel
      subst hel
      norm_num [c1bad, c1L]),
    placementPass_nil c1L (fun el hel => by
      simp only [show c1L.elements = [c1bad] from rfl, List.mem_singleton] at hel
      subst hel
      exact ⟨by decide, by decide⟩),
    gatesPass_nil c1L rfl, rampsPass_nil c1L rfl, connectivityPass_nil c1L rfl,
    show globalPass c1L = [⟨"global", none, vCONN, needEntranceMsg⟩,
      ⟨"global", none, vCONN, needExitMsg⟩] from rfl]
  unfold overlapPass
  rw [show c1L.elements.filter (fun e => decide (e.type ∈ solidTypes)) = [c1bad] from rfl]
  simp [c1cand]

/-- Counterexample to C1 as stated: the layout `c1L` contains an element of
negative width, yet `validateLayout` emits no `invalid_dimension` violation
at all, so the element is never flagged. -/
theorem claim_C1_counterexample :
    c1bad ∈ c1L.elements ∧ c1bad.width < 0 ∧
      ((validateLayout c1L).filter fun v => decide (v.type = vINVALID)) = [] := by
  refine ⟨by simp [c1L], by norm_num [c1bad], ?_⟩
  rw [c1val]
  rfl

/-- C1 (amended): `validateLayout` performs no invalid-dimension screening at
all — for every layout, its output contains no `invalid_dimension`
violation; degenerate elements flow through the geometric passes unflagged. -/
theorem claim_C1 (L : ParkingLayout) :
    (validateLayout L).filter (fun v => decide (v.type = vINVALID)) = [] := by
  refine filter_of_none _ _ fun v hv => ?_
  rw [decide_eq_false_iff_not]
  intro hty
  rcases validateLayout_types hv with h | h | h | h <;>
    exact absurd (h.symm.trans hty) (by decide)

/-! ### Claim C8 -/

/-- The placement scenario's road at `(0,0,200,20)`. -/
def c8road : LayoutElement := ⟨"r1", tROAD, 0, 0, 200, 20, some 0⟩

/-- The guidance sign on the road, at `(40,5,5,5)`. -/
def c8signA : LayoutElement := ⟨"s1", tSIGN, 40, 5, 5, 5, some 0⟩

/-- The guidance sign off the road, at `(40,100,5,5)`. -/
def c8signB : LayoutElement := ⟨"s1", tSIGN, 40, 100, 5, 5, some 0⟩

/-- Scenario with the sign on the road. -/
def c8La : ParkingLayout := ⟨200, 200, [c8road, c8signA]⟩

/-- Scenario with the sign off the road. -/
def c8Lb : ParkingLayout := ⟨200, 200, [c8road, c8signB]⟩

theorem c8keysRoad : keysFor c8road = [(0, 0), (1, 0), (2, 0)] := by
  unfold keysFor c8road
  norm_num [intRange, List.range_succ]
  rfl

theorem c8keysSignA : keysFor c8signA = [(0, 0)] := by
  unfold keysFor c8signA
  norm_num [intRange, List.range_succ]

theorem c8keysSignB : keysFor c8signB = [(0, 1)] := by
  unfold keysFor c8signB
  norm_num [intRange, List.range_succ]

theorem c8candSignA : getPotentialCollisions c8La.elements c8signA = [c8road] := by
  unfold getPotentialCollisions bucketOf dedupFirst
  simp [c8keysRoad, c8keysSignA, show c8La.elements = [c8road, c8signA] from rfl]
  simp [c8road, c8signA, List.filter_cons]

theorem c8candRoadA : getPotentialCollisions c8La.elements c8road = [c8signA] := by
  unfold getPotentialCollisions bucketOf dedupFirst
  simp [c8keysRoad, c8keysSignA, show c8La.elements = [c8road, c8signA] from rfl]
  simp [c8road, c8signA, List.filter_cons]

theorem c8candSignB : getPotentialCollisions c8Lb.elements c8signB = [] := by
  unfold getPotentialCollisions bucketOf dedupFirst
  simp [c8keysRoad, c8keysSignB, show c8Lb.elements = [c8road, c8signB] from rfl]

theorem c8candRoadB : getPotentialCollisions c8Lb.elements c8road = [] := by
  unfold getPotentialCollisions bucketOf dedupFirst
  simp [c8keysRoad, c8keysSignB, show c8Lb.elements = [c8road, c8signB] from rfl]
  simp [List.filter_cons, c8keysSignB]
  rw [if_neg (by decide)]
  rfl

theorem c8ovA : isOverlapping c8road c8signA = true := by
  unfold isOverlapping
  rw [(isPoly_box_iff c8road c8signA rfl rfl (by norm_num [c8road]) (by norm_num [c8road])
    (by norm_num [c8signA]) (by norm_num [c8signA])).mpr (by norm_num [c8road, c8signA])]
  norm_num [c8road, c8signA]

theorem c8placeA : placementPass c8La = [] := by
  unfold placementPass
  rw [show c8La.elements = [c8road, c8signA] from rfl]
  simp only [List.flatMap_cons, List.flatMap_nil]
  rw [show nearbyRoads c8La c8signA = [c8road] by
    unfold nearbyRoads
    rw [c8candSignA]
    rfl]
  have hAny : ([c8road].any fun road => isOverlapping road c8signA) = true := by
    simp [c8ovA]
  rw [if_neg (by decide), if_neg (by decide), if_pos (by decide),
    if_neg (by rw [hAny]; decide), if_neg (by decide)]
  rfl

theorem c8checkRS : overlapCheck c8road c8signA = none := by
  unfold overlapCheck
  rw [if_neg (by simp [c8road, c8signA]; decide), if_pos (by decide)]

theorem c8overlapA : overlapPass c8La = [] := by
  unfold overlapPass
  rw [show c8La.elements.filter (fun e => decide (e.type ∈ solidTypes)) = [c8road] from rfl]
  simp [c8candRoadA, c8checkRS]

theorem c8valA : validateLayout c8La =
    [⟨"global", none, vCONN, needEntranceMsg⟩, ⟨"global", none, vCONN, needExitMsg⟩] := by
  unfold validateLayout
  rw [boundsPass_nil c8La (fun el hel => by
      simp only [show c8La.elements = [c8road, c8signA] from rfl, List.mem_cons,
        List.mem_singleton, List.not_mem_nil, or_false] at hel
      rcases hel with rfl | rfl <;> norm_num [c8road, c8signA, c8La]),
    c8overlapA, c8placeA, gatesPass_nil c8La rfl, rampsPass_nil c8La rfl,
    connectivityPass_nil c8La rfl,
    show globalPass c8La = [⟨"global", none, vCONN, needEntranceMsg⟩,
      ⟨"global", none, vCONN, needExitMsg⟩] from rfl]
  rfl

theorem c8placeB : placementPass c8Lb =
    [⟨"s1", none, vPLACEMENT, tSIGN ++ " must be placed on a Driving Lane."⟩] := by
  unfold placementPass
  rw [show c8Lb.elements = [c8road, c8signB] from rfl]
  simp only [List.flatMap_cons, List.flatMap_nil]
  rw [show nearbyRoads c8Lb c8signB = [] by
    unfold nearbyRoads
    rw [c8candSignB]
    rfl]
  rw [if_neg (by decide), if_neg (by decide), if_pos (by decide),
    if_pos (by decide), if_neg (by decide)]
  rfl

theorem c8overlapB : overlapPass c8Lb = [] := by
  unfold overlapPass
  rw [show c8Lb.elements.filter (fun e => decide (e.type ∈ solidTypes)) = [c8road] from rfl]
  simp [c8candRoadB]

theorem c8valB : validateLayout c8Lb =
    [⟨"s1", none, vPLACEMENT, tSIGN ++ " must be placed on a Driving Lane."⟩,
     ⟨"global", none, vCONN, needEntranceMsg⟩, ⟨"global", none, vCONN, needExitMsg⟩] := by
  unfold validateLayout
  rw [boundsPass_nil c8Lb (fun el hel => by
      simp only [show c8Lb.elements = [c8road, c8signB] from rfl, List.mem_cons,
        List.mem_singleton, List.not_mem_nil, or_false] at hel
      rcases hel with rfl | rfl <;> norm_num [c8road, c8signB, c8Lb]),
    c8overlapB, c8placeB, gatesPass_nil c8Lb rfl, rampsPass_nil c8Lb rfl,
    connectivityPass_nil c8Lb rfl,
    show globalPass c8Lb = [⟨"global", none, vCONN, needEntranceMsg⟩,
      ⟨"global", none, vCONN, needExitMsg⟩] from rfl]
  rfl

/-- C8: in the 200x200 layout with a road at `(0,0,200,20)`, a guidance sign
at `(40,5,5,5)` receives no `placement_error`; moving the same sign to
`(40,100,5,5)` yields exactly one `placement_error` for it. -/
theorem claim_C8 :
    ((validateLayout c8La).filter fun v =>
      decide (v.type = vPLACEMENT ∧ v.elementId = "s1")) = [] ∧
    ((validateLayout c8Lb).filter fun v =>
      decide (v.type = vPLACEMENT ∧ v.elementId = "s1")) =
      [⟨"s1", none, vPLACEMENT, tSIGN ++ " must be placed on a Driving Lane."⟩] := by
  constructor
  · rw [c8valA]
    rfl
  · rw [c8valB]
    rfl

/-! ### Claim C2 -/

/-- For a filter selecting only `out_of_bounds` violations, the validator
output reduces to the bounds pass. -/
theorem filter_validateLayout_oob (L : ParkingLayout) (p : ConstraintViolation → Bool)
    (hty : ∀ v, p v = true → v.type = vOOB) :
    (validateLayout L).filter p = (boundsPass L).filter p := by
  unfold validateLayout
  simp only [List.filter_append]
  rw [filter_ne_type (overlapPass L) p hty fun v hv => by rw [overlapPass_shape hv]; decide,
    filter_ne_type (placementPass L) p hty fun v hv => by
      rw [(placementPass_shape hv).1]; decide,
    filter_ne_type (gatesPass L) p hty fun v hv => by rw [(gatesPass_shape hv).1]; decide,
    filter_ne_type (rampsPass L) p hty fun v hv => by rw [(rampsPass_shape hv).1]; decide,
    filter_ne_type (connectivityPass L) p hty fun v hv => by
      rw [(connectivityPass_shape hv).1]; decide,
    filter_ne_type (globalPass L) p hty fun v hv => by
      rw [(globalPass_shape hv).1]; decide]
  simp

/-- C2 (amended): under unique ids, an element all of whose rotated corners
lie within the canvas never receives an `out_of_bounds` violation; and an
element with a rotated corner outside receives exactly one such violation
provided its unrotated bounding box also violates the bounds (the quick AABB
prefilter that guards the precise corner test). -/
theorem claim_C2 (L : ParkingLayout) (hn : (L.elements.map (fun e => e.id)).Nodup)
    (el : LayoutElement) (hel : el ∈ L.elements) :
    ((∀ p ∈ getCorners el,
        0 ≤ p.1 ∧ p.1 ≤ (L.width : ℝ) ∧ 0 ≤ p.2 ∧ p.2 ≤ (L.height : ℝ)) →
      ((validateLayout L).filter fun v =>
        decide (v.type = vOOB ∧ v.elementId = el.id)) = []) ∧
    ((el.x < 0 ∨ el.x + el.width > L.width ∨ el.y < 0 ∨ el.y + el.height > L.height) →
      (∃ p ∈ getCorners el,
        p.1 < 0 ∨ p.1 > (L.width : ℝ) ∨ p.2 < 0 ∨ p.2 > (L.height : ℝ)) →
      ((validateLayout L).filter fun v =>
        decide (v.type = vOOB ∧ v.elementId = el.id)).length = 1) := by
  have hred : (validateLayout L).filter (fun v =>
      decide (v.type = vOOB ∧ v.elementId = el.id)) =
      (if el.x < 0 ∨ el.x + el.width > L.width ∨ el.y < 0 ∨ el.y + el.height > L.height then
          if (getCorners el).any (fun p =>
              decide (p.1 < 0 ∨ p.1 > (L.width : ℝ) ∨ p.2 < 0 ∨ p.2 > (L.height : ℝ))) then
            some (⟨el.id, none, vOOB, "Element is outside boundary."⟩ : ConstraintViolation)
          else none
        else none).toList.filter (fun v =>
          decide (v.type = vOOB ∧ v.elementId = el.id)) := by
    rw [filter_validateLayout_oob L _
      (fun v hv => by simp only [decide_eq_true_eq] at hv; exact hv.1)]
    unfold boundsPass
    exact filter_filterMap_key L.elements (fun e => e.id) _ (fun v => v.elementId)
      (fun e v hfe => by split_ifs at hfe; cases hfe; rfl) hn el hel _
      (fun v hv => by simp only [decide_eq_true_eq] at hv; exact hv.2)
  constructor
  · intro hin
    rw [hred]
    have hany : ((getCorners el).any fun p =>
        decide (p.1 < 0 ∨ p.1 > (L.width : ℝ) ∨ p.2 < 0 ∨ p.2 > (L.height : ℝ))) = false := by
      rw [List.any_eq_false]
      intro p hp
      simp only [decide_eq_true_eq]
      obtain ⟨h1, h2, h3, h4⟩ := hin p hp
      push_neg
      exact ⟨h1, h2, h3, h4⟩
    by_cases hpre : el.x < 0 ∨ el.x + el.width > L.width ∨ el.y < 0 ∨
        el.y + el.height > L.height
    · rw [if_pos hpre, if_neg (by rw [hany]; exact Bool.false_ne_true)]
      rfl
    · rw [if_neg hpre]
      rfl
  · intro hpre hout
    rw [hred]
    have hany2 : ((getCorners el).any fun p =>
        decide (p.1 < 0 ∨ p.1 > (L.width : ℝ) ∨ p.2 < 0 ∨ p.2 > (L.height : ℝ))) = true := by
      rw [List.any_eq_true]
      obtain ⟨p, hp, hcond⟩ := hout
      exact ⟨p, hp, by simpa using hcond⟩
    rw [if_pos hpre, if_pos hany2]
    simp

/-- The counterexample element for C2: a thin rectangle rotated 90 degrees
whose corners leave the canvas although its unrotated box stays inside. -/
def c2el : LayoutElement := ⟨"e1", tPARKING, 0, 0, 10, 2, some 90⟩

/-- Layout for the C2 counterexample. -/
def c2L : ParkingLayout := ⟨200, 200, [c2el]⟩

theorem c2corners : getCorners c2el =
    [((6 : ℝ), (-4 : ℝ)), (6, 6), (4, 6), (4, -4)] := by
  rw [getCorners_rot90 c2el rfl]
  rw [show rot90Pts c2el = [(6, -4), (6, 6), (4, 6), (4, -4)] by
    unfold rot90Pts c2el boxPts
    norm_num]
  unfold castPt
  norm_num

theorem c2keys : keysFor c2el = [(0, 0)] := by
  unfold keysFor c2el
  norm_num [intRange, List.range_succ]

theorem c2cand : getPotentialCollisions c2L.elements c2el = [] := by
  unfold getPotentialCollisions bucketOf dedupFirst
  simp [show c2L.elements = [c2el] from rfl, c2keys]

theorem c2val : validateLayout c2L =
    [⟨"global", none, vCONN, needEntranceMsg⟩, ⟨"global", none, vCONN, needExitMsg⟩] := by
  unfold validateLayout
  rw [boundsPass_nil c2L (fun el hel => by
      simp only [show c2L.elements = [c2el] from rfl, List.mem_singleton] at hel
      subst hel
      norm_num [c2el, c2L]),
    placementPass_nil c2L (fun el hel => by
      simp only [show c2L.elements = [c2el] from rfl, List.mem_singleton] at hel
      subst hel
      exact ⟨by decide, by decide⟩),
    gatesPass_nil c2L rfl, rampsPass_nil c2L rfl, connectivityPass_nil c2L rfl,
    show globalPass c2L = [⟨"global", none, vCONN, needEntranceMsg⟩,
      ⟨"global", none, vCONN, needExitMsg⟩] from rfl]
  unfold overlapPass
  rw [show c2L.elements.filter (fun e => decide (e.type ∈ solidTypes)) = [c2el] from rfl]
  simp [c2cand]

/-- Counterexample to C2 as stated: the 90-degree-rotated element `c2el` has
the corner `(6, -4)` outside the 200x200 canvas, yet `validateLayout` emits
no `out_of_bounds` violation, because the unrotated-AABB quick check guards
the corner test. -/
theorem claim_C2_counterexample :
    ((6 : ℝ), (-4 : ℝ)) ∈ getCorners c2el ∧ ((-4 : ℝ)) < 0 ∧
      ((validateLayout c2L).filter fun v => decide (v.type = vOOB)) = [] := by
  refine ⟨?_, by norm_num, ?_⟩
  · rw [c2corners]
    exact List.mem_cons_self _ _
  · rw [c2val]
    rfl

/-- Witness for the amended C2: a wall protruding past the left edge gets
exactly one `out_of_bounds` violation. -/
def c2w : LayoutElement := ⟨"w1", tWALL, -5, 10, 10, 10, some 0⟩

/-- Layout for the C2 witness. -/
def c2wL : ParkingLayout := ⟨200, 200, [c2w]⟩

/-- Witness for C2 (amended), applying the theorem at `c2wL`. -/
theorem claim_C2_witness :
    (c2wL.elements.map (fun e => e.id)).Nodup ∧ c2w ∈ c2wL.elements ∧
      (c2w.x < 0 ∨ c2w.x + c2w.width > c2wL.width ∨ c2w.y < 0 ∨
        c2w.y + c2w.height > c2wL.height) ∧
      (∃ p ∈ getCorners c2w,
        p.1 < 0 ∨ p.1 > (c2wL.width : ℝ) ∨ p.2 < 0 ∨ p.2 > (c2wL.height : ℝ)) ∧
      ((validateLayout c2wL).filter fun v =>
        decide (v.type = vOOB ∧ v.elementId = c2w.id)).length = 1 := by
  have hmem : c2w ∈ c2wL.elements := List.mem_cons_self _ _
  have hpre : c2w.x < 0 ∨ c2w.x + c2w.width > c2wL.width ∨ c2w.y < 0 ∨
      c2w.y + c2w.height > c2wL.height := by
    norm_num [c2w, c2wL]
  have hout : ∃ p ∈ getCorners c2w,
      p.1 < 0 ∨ p.1 > (c2wL.width : ℝ) ∨ p.2 < 0 ∨ p.2 > (c2wL.height : ℝ) := by
    rw [getCorners_rot0 c2w rfl]
    refine ⟨castPt (c2w.x, c2w.y), ?_, ?_⟩
    · exact List.mem_map_of_mem castPt (List.mem_cons_self _ _)
    · unfold castPt c2w
      norm_num
  exact ⟨by decide, hmem, hpre, hout,
    (claim_C2 c2wL (by decide) c2w hmem).2 hpre hout⟩

/-! ### Claim C6 -/

/-- The strict ramp/road rule's condition (`geometry.ts` lines 229-230): the
unrotated intersection box exists and both sides exceed the 2-unit
tolerance. -/
def rampRoadStrict (a b : LayoutElement) : Bool :=
  match getIntersectionBox a b with
  | some (_, _, w, h) => decide (w > 2 ∧ h > 2)
  | none => false

theorem getIntersectionBox_comm (a b : LayoutElement) :
    getIntersectionBox a b = getIntersectionBox b a := by
  unfold getIntersectionBox
  rw [max_comm a.x b.x, max_comm a.y b.y, min_comm (a.x + a.width) (b.x + b.width),
    min_comm (a.y + a.height) (b.y + b.height)]

theorem rampRoadStrict_comm (a b : LayoutElement) :
    rampRoadStrict a b = rampRoadStrict b a := by
  unfold rampRoadStrict
  rw [getIntersectionBox_comm]

/-- On a ramp/road candidate pair in id order, `overlapCheck` is exactly the
strict intersection-box rule — no SAT test is consulted. -/
theorem overlapCheck_rampRoad {e1 e2 : LayoutElement}
    (hrr : (e1.type = tRAMP ∧ e2.type = tROAD) ∨ (e2.type = tRAMP ∧ e1.type = tROAD))
    (hlt : e1.id < e2.id) :
    overlapCheck e1 e2 =
      if rampRoadStrict e1 e2 then
        some ⟨e1.id, some e2.id, vOVERLAP, "Ramp and Road must not overlap."⟩
      else none := by
  have h1 : e1.type = tRAMP ∨ e1.type = tROAD := by
    rcases hrr with ⟨h, _⟩ | ⟨_, h⟩
    exacts [Or.inl h, Or.inr h]
  have h2 : e2.type = tRAMP ∨ e2.type = tROAD := by
    rcases hrr with ⟨_, h⟩ | ⟨h, _⟩
    exacts [Or.inr h, Or.inl h]
  unfold overlapCheck
  rw [if_neg (not_le.mpr hlt),
    if_neg (by rcases h2 with h | h <;> rw [h] <;> decide),
    if_neg (by
      rintro ⟨ha, _⟩
      rcases h1 with h | h <;> rw [h] at ha <;> exact absurd ha (by decide)),
    if_neg (by
      rintro ⟨ha, hb⟩
      rcases hrr with ⟨hc, _⟩ | ⟨hc, _⟩
      · exact absurd (hc.symm.trans ha) (by decide)
      · exact absurd (hc.symm.trans hb) (by decide)),
    if_neg (by
      rintro (⟨ha, _⟩ | ⟨ha, _⟩)
      · rcases h1 with h | h <;> rw [h] at ha <;> exact absurd ha (by decide)
      · rcases h2 with h | h <;> rw [h] at ha <;> exact absurd ha (by decide)),
    if_pos hrr]
  unfold rampRoadStrict
  cases hbox : getIntersectionBox e1 e2 with
  | none => rfl
  | some q =>
    obtain ⟨x, y, w, h⟩ := q
    by_cases hc : w > 2 ∧ h > 2 <;> simp [hc]

/-- Every overlap-pass violation comes from an ordered candidate pair. -/
theorem overlapPass_mem_shape {L : ParkingLayout} {v : ConstraintViolation}
    (h : v ∈ overlapPass L) : ∃ e1 ∈ L.elements, ∃ e2 ∈ L.elements,
      v.elementId = e1.id ∧ v.targetId = some e2.id ∧ e1.id < e2.id := by
  obtain ⟨e1, he1, hin⟩ := List.mem_flatMap.mp h
  obtain ⟨e2, he2, hfe⟩ := List.mem_filterMap.mp hin
  obtain ⟨s1, s2, _, s4⟩ := overlapCheck_shape hfe
  exact ⟨e1, (List.mem_filter.mp he1).1, e2, (mem_getPotentialCollisions.mp he2).1,
    s1, s2, s4⟩

theorem length_filter_or_disjoint {β : Type} (l : List β) (p q : β → Bool)
    (hdisj : ∀ v, ¬(p v = true ∧ q v = true)) :
    (l.filter fun v => p v || q v).length = (l.filter p).length + (l.filter q).length := by
  induction l with
  | nil => rfl
  | cons a t ih =>
    rcases hp : p a with _ | _ <;> rcases hq : q a with _ | _
    · simp [List.filter_cons, hp, hq, ih]
    · simp [List.filter_cons, hp, hq, ih]
      omega
    · simp [List.filter_cons, hp, hq, ih]
      omega
    · exact absurd ⟨hp, hq⟩ (hdisj a)

/-- An `overlap` violation naming `a` as element and `b` as target. -/
def pairViol (a b : LayoutElement) (v : ConstraintViolation) : Bool :=
  decide (v.type = vOVERLAP ∧ v.elementId = a.id ∧ v.targetId = some b.id)

theorem pairViol_type {a b : LayoutElement} {v : ConstraintViolation}
    (h : pairViol a b v = true) :
    v.type = vOVERLAP ∧ v.elementId = a.id ∧ v.targetId = some b.id := by
  unfold pairViol at h
  exact of_decide_eq_true h

/-- C6: for a ramp/road candidate pair, the overlap pass emits an `overlap`
violation naming the pair (in either order) exactly when the unrotated
intersection box exists with both sides strictly greater than 2; the SAT
test plays no role for such pairs. -/
theorem claim_C6 (L : ParkingLayout) (hn : (L.elements.map (fun e => e.id)).Nodup)
    (a b : LayoutElement) (ha : a ∈ L.elements) (hb : b ∈ L.elements)
    (hta : a.type = tRAMP) (htb : b.type = tROAD)
    (hcand : b ∈ getPotentialCollisions L.elements a) :
    ((validateLayout L).filter fun v => pairViol a b v || pairViol b a v).length =
      if rampRoadStrict a b then 1 else 0 := by
  have hidne : a.id ≠ b.id := fun hc => (mem_getPotentialCollisions.mp hcand).2.1 hc.symm
  have hinj : ∀ x ∈ L.elements, ∀ y ∈ L.elements, x.id = y.id → x = y := fun x hx y hy =>
    List.inj_on_of_nodup_map hn hx hy
  have hsolid_a : a ∈ L.elements.filter (fun e => decide (e.type ∈ solidTypes)) :=
    List.mem_filter.mpr ⟨ha, by rw [hta]; decide⟩
  have hsolid_b : b ∈ L.elements.filter (fun e => decide (e.type ∈ solidTypes)) :=
    List.mem_filter.mpr ⟨hb, by rw [htb]; decide⟩
  rw [filter_validateLayout_overlap L (fun v => pairViol a b v || pairViol b a v)
    (fun v hv => by
      rw [Bool.or_eq_true] at hv
      rcases hv with h | h
      exacts [(pairViol_type h).1, (pairViol_type h).1])]
  rw [length_filter_or_disjoint (overlapPass L) (pairViol a b) (pairViol b a) (fun v => by
    rintro ⟨hp, hq⟩
    exact hidne ((pairViol_type hp).2.1.symm.trans (pairViol_type hq).2.1))]
  rcases lt_or_gt_of_ne (fun hc : a.id = b.id => hidne hc) with hlt | hgt
  · have hzero : (overlapPass L).filter (pairViol b a) = [] := by
      refine filter_of_none _ _ fun v hv => ?_
      rcases hpv : pairViol b a v with _ | _
      · rfl
      · obtain ⟨_, hvb, hva⟩ := pairViol_type hpv
        obtain ⟨e1, he1, e2, he2, s1, s2, s4⟩ := overlapPass_mem_shape hv
        have he1b : e1 = b := hinj e1 he1 b hb (s1.symm.trans hvb)
        have he2a : e2 = a := hinj e2 he2 a ha (Option.some_injective _ (s2.symm.trans hva))
        rw [he1b, he2a] at s4
        exact absurd hlt (not_lt.mpr s4.le)
    rw [hzero, List.length_nil, Nat.add_zero]
    unfold overlapPass
    rw [filter_flatMap_key (L.elements.filter (fun e => decide (e.type ∈ solidTypes)))
      (fun e => e.id)
      (fun e1 => (getPotentialCollisions L.elements e1).filterMap (overlapCheck e1))
      (fun v => v.elementId)
      (fun e v hv => by
        obtain ⟨e2, _, hfe⟩ := List.mem_filterMap.mp hv
        exact (overlapCheck_shape hfe).1)
      (filter_ids_nodup hn _) a hsolid_a (pairViol a b)
      (fun v hv => (pairViol_type hv).2.1)]
    rw [filter_filterMap_key (getPotentialCollisions L.elements a)
      (fun e => some e.id) (overlapCheck a) (fun v => v.targetId)
      (fun e v hv => (overlapCheck_shape hv).2.1) ?_ b hcand (pairViol a b)
      (fun v hv => (pairViol_type hv).2.2)]
    · rw [overlapCheck_rampRoad (Or.inl ⟨hta, htb⟩) hlt]
      by_cases hs : rampRoadStrict a b = true
      · rw [if_pos hs, if_pos hs]
        simp [pairViol]
      · rw [if_neg hs, if_neg hs]
        rfl
    · rw [show (fun e : LayoutElement => some e.id) =
        (fun s : String => some s) ∘ (fun e => e.id) from rfl, ← List.map_map]
      exact (getPotentialCollisions_ids_nodup hn a).map (Option.some_injective String)
  · have hzero : (overlapPass L).filter (pairViol a b) = [] := by
      refine filter_of_none _ _ fun v hv => ?_
      rcases hpv : pairViol a b v with _ | _
      · rfl
      · obtain ⟨_, hva, hvb⟩ := pairViol_type hpv
        obtain ⟨e1, he1, e2, he2, s1, s2, s4⟩ := overlapPass_mem_shape hv
        have he1a : e1 = a := hinj e1 he1 a ha (s1.symm.trans hva)
        have he2b : e2 = b := hinj e2 he2 b hb (Option.some_injective _ (s2.symm.trans hvb))
        rw [he1a, he2b] at s4
        exact absurd hgt (not_lt.mpr s4.le)
    rw [hzero, List.length_nil, Nat.zero_add]
    have hcand2 : a ∈ getPotentialCollisions L.elements b :=
      (getPotentialCollisions_symm ha hb hidne).mp hcand
    unfold overlapPass
    rw [filter_flatMap_key (L.elements.filter (fun e => decide (e.type ∈ solidTypes)))
      (fun e => e.id)
      (fun e1 => (getPotentialCollisions L.elements e1).filterMap (overlapCheck e1))
      (fun v => v.elementId)
      (fun e v hv => by
        obtain ⟨e2, _, hfe⟩ := List.mem_filterMap.mp hv
        exact (overlapCheck_shape hfe).1)
      (filter_ids_nodup hn _) b hsolid_b (pairViol b a)
      (fun v hv => (pairViol_type hv).2.1)]
    rw [filter_filterMap_key (getPotentialCollisions L.elements b)
      (fun e => some e.id) (overlapCheck b) (fun v => v.targetId)
      (fun e v hv => (overlapCheck_shape hv).2.1) ?_ a hcand2 (pairViol b a)
      (fun v hv => (pairViol_type hv).2.2)]
    · rw [overlapCheck_rampRoad (Or.inr ⟨hta, htb⟩) hgt]
      rw [rampRoadStrict_comm a b]
      by_cases hs : rampRoadStrict b a = true
      · rw [if_pos hs, if_pos hs]
        simp [pairViol]
      · rw [if_neg hs, if_neg hs]
        rfl
    · rw [show (fun e : LayoutElement => some e.id) =
        (fun s : String => some s) ∘ (fun e => e.id) from rfl, ← List.map_map]
      exact (getPotentialCollisions_ids_nodup hn b).map (Option.some_injective String)


/-- Ramp of the C6 witness scenario. -/
def c6ramp : LayoutElement := ⟨"a", tRAMP, 0, 0, 10, 10, some 0⟩

/-- Road of the C6 witness scenario, overlapping the ramp on a 5x5 box. -/
def c6road : LayoutElement := ⟨"b", tROAD, 5, 5, 10, 10, some 0⟩

/-- The C6 witness layout. -/
def c6L : ParkingLayout := ⟨200, 200, [c6ramp, c6road]⟩

theorem c6keysRamp : keysFor c6ramp = [(0, 0)] := by
  unfold keysFor c6ramp
  norm_num [intRange, List.range_succ]

theorem c6keysRoad : keysFor c6road = [(0, 0)] := by
  unfold keysFor c6road
  norm_num [intRange, List.range_succ]

theorem c6cand : c6road ∈ getPotentialCollisions c6L.elements c6ramp := by
  refine mem_getPotentialCollisions.mpr ⟨?_, by decide, (0, 0), ?_, ?_⟩
  · exact List.mem_cons_of_mem _ (List.mem_cons_self _ _)
  · rw [c6keysRamp]
    exact List.mem_singleton.mpr rfl
  · rw [c6keysRoad]
    exact List.mem_singleton.mpr rfl

theorem c6strict : rampRoadStrict c6ramp c6road = true := by
  have hbox : getIntersectionBox c6ramp c6road = some (5, 5, 5, 5) := by
    unfold getIntersectionBox c6ramp c6road
    rw [if_pos (by norm_num [max_def, min_def])]
    norm_num [max_def, min_def]
  unfold rampRoadStrict
  rw [hbox]
  norm_num

/-- Witness for C6: a ramp at (0,0,10,10) and a road at (5,5,10,10) in a
200x200 layout share a 5x5 intersection box, so exactly one overlap
violation names the pair. -/
theorem claim_C6_witness :
    ((validateLayout c6L).filter fun v =>
      pairViol c6ramp c6road v || pairViol c6road c6ramp v).length = 1 := by
  have h := claim_C6 c6L (by decide) c6ramp c6road
    (List.mem_cons_self _ _)
    (List.mem_cons_of_mem _ (List.mem_cons_self _ _))
    rfl rfl c6cand
  rw [h, if_pos c6strict]

/-! ### Claim C7 -/

/-- C7: for an entrance whose BFS dequeues no exit, the validator emits the
per-entrance no-path `connectivity_error` exactly when the layout has at
least one exit, and never when it has none. -/
theorem claim_C7 (L : ParkingLayout) (hn : (L.elements.map (fun e => e.id)).Nodup)
    (ent : LayoutElement) (hent : ent ∈ entrancesOf L)
    (hbfs : bfsFound L ent = false) :
    ((validateLayout L).filter fun v =>
      decide (v.type = vCONN ∧ v.elementId = ent.id ∧ v.message = noPathMsg)).length =
      if (exitsOf L).length > 0 then 1 else 0 := by
  have hp : ∀ v : ConstraintViolation,
      (decide (v.type = vCONN ∧ v.elementId = ent.id ∧ v.message = noPathMsg)) = true →
      v.type = vCONN ∧ v.elementId = ent.id ∧ v.message = noPathMsg :=
    fun v hv => of_decide_eq_true hv
  rw [filter_validateLayout_conn L _
    (fun v hv => (hp v hv).1)
    (fun v hv => by
      refine ⟨?_, ?_, ?_⟩ <;> rw [(hp v hv).2.2] <;> decide)]
  have hglob : (globalPass L).filter (fun v =>
      decide (v.type = vCONN ∧ v.elementId = ent.id ∧ v.message = noPathMsg)) = [] := by
    refine filter_of_none _ _ fun v hv => ?_
    rcases hb : (decide (v.type = vCONN ∧ v.elementId = ent.id ∧ v.message = noPathMsg))
      with _ | _
    · rfl
    · rcases (globalPass_shape hv).2.2 with hm | hm <;>
        rw [(hp v hb).2.2] at hm <;> exact absurd hm (by decide)
  rw [hglob, List.append_nil]
  have hnav : (navigablesOf L).length > 0 := by
    have hmem : ent ∈ navigablesOf L := by
      unfold navigablesOf
      unfold entrancesOf at hent
      rw [List.mem_filter] at hent ⊢
      refine ⟨hent.1, ?_⟩
      have ht : ent.type = tENTRANCE := of_decide_eq_true hent.2
      rw [ht]
      decide
    exact List.length_pos_of_mem hmem
  unfold connectivityPass
  rw [if_pos hnav]
  rw [filter_filterMap_key (entrancesOf L) (fun e => e.id)
    (fun e => if bfsFound L e = false ∧ (exitsOf L).length > 0 then
      some ⟨e.id, none, vCONN, noPathMsg⟩ else none)
    (fun v => v.elementId)
    (fun e v hfe => by
      by_cases hb : bfsFound L e = false ∧ (exitsOf L).length > 0
      · simp only [if_pos hb] at hfe
        cases hfe
        rfl
      · simp only [if_neg hb] at hfe
        exact Option.noConfusion hfe)
    (filter_ids_nodup hn _) ent hent _
    (fun v hv => (hp v hv).2.1)]
  by_cases hx : (exitsOf L).length > 0
  · rw [if_pos ⟨hbfs, hx⟩, if_pos hx]
    simp
  · rw [if_neg (fun hc => hx hc.2), if_neg hx]
    rfl

/-- Entrance of the C7 witness scenario. -/
def c7e : LayoutElement := ⟨"e", tENTRANCE, 0, 0, 10, 10, some 0⟩

/-- Exit of the C7 witness scenario, in a distant grid cell. -/
def c7x : LayoutElement := ⟨"x", tEXIT, 150, 150, 10, 10, some 0⟩

/-- The C7 witness layout: disconnected entrance and exit. -/
def c7L : ParkingLayout := ⟨200, 200, [c7e, c7x]⟩

theorem c7keysE : keysFor c7e = [(0, 0)] := by
  unfold keysFor c7e
  norm_num [intRange, List.range_succ]

theorem c7keysX : keysFor c7x = [(1, 1)] := by
  unfold keysFor c7x
  norm_num [intRange, List.range_succ]

theorem c7navs : navigablesOf c7L = [c7e, c7x] := by
  unfold navigablesOf c7L
  simp [List.filter_cons, c7e, c7x, navigableTypes, tROAD, tRAMP, tENTRANCE, tEXIT]

theorem c7candE : getPotentialCollisions c7L.elements c7e = [] := by
  unfold getPotentialCollisions bucketOf dedupFirst
  simp [c7keysE, c7keysX, show c7L.elements = [c7e, c7x] from rfl]

theorem c7candX : getPotentialCollisions c7L.elements c7x = [] := by
  unfold getPotentialCollisions bucketOf dedupFirst
  simp [c7keysE, c7keysX, show c7L.elements = [c7e, c7x] from rfl]

theorem c7adj : adjMap c7L = fun _ => [] := by
  unfold adjMap
  rw [c7navs]
  simp only [List.foldl_cons, List.foldl_nil, c7candE, c7candX, List.filter_nil]

theorem c7bfs : bfsFound c7L c7e = false := by
  unfold bfsFound
  rw [c7adj, c7navs]
  simp [bfsAux, findById, show c7L.elements = [c7e, c7x] from rfl, c7e, c7x,
    tENTRANCE, tEXIT]

/-- Witness for C7: in the disconnected entrance/exit layout the BFS fails
and exactly one no-path violation is emitted for the entrance. -/
theorem claim_C7_witness :
    ((validateLayout c7L).filter fun v =>
      decide (v.type = vCONN ∧ v.elementId = c7e.id ∧ v.message = noPathMsg)).length = 1 := by
  have h := claim_C7 c7L (by decide) c7e
    (List.mem_filter.mpr ⟨List.mem_cons_self _ _, by decide⟩) c7bfs
  rw [h, if_pos (by simp [exitsOf, c7L, List.filter_cons, c7e, c7x, tENTRANCE, tEXIT])]

/-! ### Claim C3 -/

/-- Element A of the C3 counterexample: a long thin wall rotated 90
degrees, so its true footprint is vertical while the grid hashes its
unrotated horizontal bounding box. -/
def c3A : LayoutElement := ⟨"A", tWALL, 0, 0, 200, 10, some 90⟩

/-- Element B of the C3 counterexample: a small unrotated wall overlapping
A's rotated footprint but in grid rows A's unrotated box never touches. -/
def c3B : LayoutElement := ⟨"B", tWALL, 96, -50, 8, 8, some 0⟩

theorem c3Acorners : rot90Pts c3A = [(105, -95), (105, 105), (95, 105), (95, -95)] := by
  unfold rot90Pts c3A boxPts
  norm_num

theorem c3sat : isPolygonsIntersecting (getCorners c3A) (getCorners c3B) = true := by
  unfold isPolygonsIntersecting
  rw [getCorners_rot90 c3A rfl, getCorners_rot0 c3B rfl, satPoly_cast]
  rw [c3Acorners, show boxPts c3B.x c3B.y c3B.width c3B.height =
    [((96 : ℚ), -50), (104, -50), (104, -42), (96, -42)] from by unfold boxPts c3B; norm_num]
  rw [satPoly_four_iff]
  refine ⟨?_, ?_, ?_, ?_, ?_, ?_, ?_, ?_⟩ <;>
    · rw [axisOk, if_neg (by norm_num)]
      rw [Bool.not_eq_true', axisSeparates, decide_eq_false_iff_not]
      unfold projVals
      simp only [List.map_cons, List.map_nil]
      rw [listMin_four, listMax_four, listMin_four, listMax_four]
      norm_num [min_def, max_def]

theorem c3keysA : keysFor c3A = [(0, 0), (1, 0), (2, 0)] := by
  unfold keysFor c3A
  norm_num [intRange, List.range_succ]
  rfl

theorem c3keysB : keysFor c3B = [(0, -1), (1, -1)] := by
  unfold keysFor c3B
  norm_num [intRange, List.range_succ]
  rfl

/-- Counterexample to C3: both rotations are multiples of 90, the exact
polygons intersect, yet the grid's candidate set for A misses B, because
the grid hashes unrotated bounding boxes. -/
theorem claim_C3_counterexample :
    (∃ n : ℤ, rotationD c3A = 90 * (n : ℚ)) ∧
    (∃ n : ℤ, rotationD c3B = 90 * (n : ℚ)) ∧
    isPolygonsIntersecting (getCorners c3A) (getCorners c3B) = true ∧
    c3B ∉ getPotentialCollisions [c3A, c3B] c3A := by
  refine ⟨⟨1, by norm_num [rotationD, c3A]⟩, ⟨0, by norm_num [rotationD, c3B]⟩, c3sat, ?_⟩
  intro hmem
  obtain ⟨_, _, k, hk1, hk2⟩ := mem_getPotentialCollisions.mp hmem
  rw [c3keysA] at hk1
  rw [c3keysB] at hk2
  simp only [List.mem_cons, List.not_mem_nil, or_false] at hk1
  rcases hk1 with rfl | rfl | rfl <;> simp [Prod.ext_iff] at hk2

theorem floor_div100_mono {p q : ℚ} (h : p ≤ q) : ⌊p / 100⌋ ≤ ⌊q / 100⌋ :=
  Int.floor_le_floor (by
    have h100 : (0 : ℚ) < 100 := by norm_num
    exact (div_le_div_iff_of_pos_right h100).mpr h)

/-- C3 (amended): the broad phase is complete for *unrotated* elements of
positive size: when the exact polygons of two distinct elements of the list
intersect, the candidate set of one contains the other.  (With rotation an
odd multiple of 90 the grid still hashes the unrotated bounding box and the
property fails — see the counterexample.) -/
theorem claim_C3 (els : List LayoutElement) (a b : LayoutElement)
    (hb : b ∈ els) (hne : b.id ≠ a.id)
    (hra : rotationD a = 0) (hrb : rotationD b = 0)
    (hwa : 0 < a.width) (hhA : 0 < a.height) (hwb : 0 < b.width) (hhb : 0 < b.height)
    (hsat : isPolygonsIntersecting (getCorners a) (getCorners b) = true) :
    b ∈ getPotentialCollisions els a := by
  rw [isPoly_box_iff a b hra hrb hwa hhA hwb hhb] at hsat
  obtain ⟨h1, h2, h3, h4⟩ := hsat
  refine mem_getPotentialCollisions.mpr ⟨hb, hne,
    (⌊max a.x b.x / 100⌋, ⌊max a.y b.y / 100⌋), ?_, ?_⟩
  · rw [mem_keysFor]
    refine ⟨floor_div100_mono (le_max_left _ _),
      floor_div100_mono (max_le (le_add_of_nonneg_right hwa.le) h2),
      floor_div100_mono (le_max_left _ _),
      floor_div100_mono (max_le (le_add_of_nonneg_right hhA.le) h4)⟩
  · rw [mem_keysFor]
    refine ⟨floor_div100_mono (le_max_right _ _),
      floor_div100_mono (max_le h1 (le_add_of_nonneg_right hwb.le)),
      floor_div100_mono (le_max_right _ _),
      floor_div100_mono (max_le h3 (le_add_of_nonneg_right hhb.le))⟩

/-- First wall of the C3 witness pair. -/
def c3wA : LayoutElement := ⟨"wa", tWALL, 0, 0, 10, 10, some 0⟩

/-- Second wall of the C3 witness pair, overlapping the first. -/
def c3wB : LayoutElement := ⟨"wb", tWALL, 5, 5, 10, 10, some 0⟩

/-- Witness for the amended C3 at two concrete overlapping unrotated
walls. -/
theorem claim_C3_witness : c3wB ∈ getPotentialCollisions [c3wA, c3wB] c3wA := by
  refine claim_C3 [c3wA, c3wB] c3wA c3wB
    (List.mem_cons_of_mem _ (List.mem_cons_self _ _)) (by decide) rfl rfl
    (by norm_num [c3wA]) (by norm_num [c3wA]) (by norm_num [c3wB]) (by norm_num [c3wB]) ?_
  rw [isPoly_box_iff c3wA c3wB rfl rfl (by norm_num [c3wA]) (by norm_num [c3wA])
    (by norm_num [c3wB]) (by norm_num [c3wB])]
  norm_num [c3wA, c3wB]

/-! ### Claim C10 -/

/-- Road of the C10 counterexample: a degenerate (height-0) driving lane. -/
def c10road : LayoutElement := ⟨"r", tROAD, 0, 0, 5, 0, some 0⟩

/-- Ramp of the C10 counterexample: a degenerate (height-0) slope far from
the road but on the same horizontal line. -/
def c10ramp : LayoutElement := ⟨"a", tRAMP, 50, 0, 5, 0, some 0⟩

/-- The C10 counterexample layout. -/
def c10L : ParkingLayout := ⟨200, 200, [c10road, c10ramp]⟩

theorem c10keysRoad : keysFor c10road = [(0, 0)] := by
  unfold keysFor c10road
  norm_num [intRange, List.range_succ]

theorem c10keysRamp : keysFor c10ramp = [(0, 0)] := by
  unfold keysFor c10ramp
  norm_num [intRange, List.range_succ]

theorem c10candRoad : getPotentialCollisions c10L.elements c10road = [c10ramp] := by
  unfold getPotentialCollisions bucketOf dedupFirst
  simp [c10keysRoad, c10keysRamp, show c10L.elements = [c10road, c10ramp] from rfl]
  simp [c10road, c10ramp, List.filter_cons]

theorem c10candRamp : getPotentialCollisions c10L.elements c10ramp = [c10road] := by
  unfold getPotentialCollisions bucketOf dedupFirst
  simp [c10keysRoad, c10keysRamp, show c10L.elements = [c10road, c10ramp] from rfl]
  simp [c10road, c10ramp, List.filter_cons]

/-- The degenerate segments lie on the same line, so the SAT test (all of
whose non-degenerate axes are vertical) reports an intersection despite the
45-unit horizontal gap. -/
theorem c10satT : isTouching c10road c10ramp = true := by
  unfold isTouching
  rw [isPoly_rot0 c10road c10ramp rfl rfl,
    show boxPts c10road.x c10road.y c10road.width c10road.height =
      boxPts (0 : ℚ) 0 5 0 from rfl,
    show boxPts c10ramp.x c10ramp.y c10ramp.width c10ramp.height =
      boxPts (50 : ℚ) 0 5 0 from rfl,
    satPoly_seg_iff 0 0 5 50 0 5 (by norm_num) (by norm_num)]
  exact ⟨le_refl 0, le_refl 0⟩

/-- The padded-AABB prefilter rejects the pair, so `isOverlapping` is false
even though the SAT test would succeed. -/
theorem c10over : isOverlapping c10road c10ramp = false := by
  unfold isOverlapping
  rw [show (decide (c10ramp.x + c10ramp.width ≥ c10road.x - 2 ∧
      c10ramp.x ≤ c10road.x + c10road.width + 2 ∧
      c10ramp.y + c10ramp.height ≥ c10road.y - 2 ∧
      c10ramp.y ≤ c10road.y + c10road.height + 2)) = false from by
    rw [decide_eq_false_iff_not]
    intro h
    have h2 := h.2.1
    norm_num [c10ramp, c10road] at h2]
  rw [Bool.false_and]

theorem c10bounds : boundsPass c10L = [] := by
  refine boundsPass_nil _ fun el hel => ?_
  simp only [show c10L.elements = [c10road, c10ramp] from rfl, List.mem_cons,
    List.mem_singleton, List.not_mem_nil, or_false] at hel
  rcases hel with rfl | rfl <;> norm_num [c10road, c10ramp, c10L]

theorem c10checkRoadRamp : overlapCheck c10road c10ramp = none := by
  unfold overlapCheck
  rw [if_pos (by simp [c10road, c10ramp]; decide)]

theorem c10checkRampRoad : overlapCheck c10ramp c10road = none := by
  rw [overlapCheck_rampRoad (Or.inl ⟨rfl, rfl⟩) (by simp [c10road, c10ramp]; decide)]
  rw [show rampRoadStrict c10ramp c10road = false from by
    unfold rampRoadStrict
    rw [show getIntersectionBox c10ramp c10road = none from by
      unfold getIntersectionBox c10ramp c10road
      rw [if_neg (by norm_num [max_def, min_def])]]]
  rfl

theorem c10overlap : overlapPass c10L = [] := by
  unfold overlapPass
  rw [show c10L.elements.filter (fun e => decide (e.type ∈ solidTypes)) =
    [c10road, c10ramp] from rfl]
  simp [c10candRoad, c10candRamp, c10checkRoadRamp, c10checkRampRoad]

theorem c10place : placementPass c10L = [] := by
  unfold placementPass
  rw [show c10L.elements = [c10road, c10ramp] from rfl]
  simp only [List.flatMap_cons, List.flatMap_nil]
  rw [show nearbyRoads c10L c10ramp = [c10road] from by
    unfold nearbyRoads
    rw [c10candRamp]
    rfl]
  have hAny : ([c10road].any fun road => isOverlapping road c10ramp) = false := by
    simp [c10over]
  rw [if_neg (by decide), if_neg (by decide), if_neg (by decide),
    if_pos (by decide), if_neg (fun hc => by rw [hAny] at hc; exact Bool.false_ne_true hc.1)]
  rfl

theorem c10ramps : rampsPass c10L = [] := by
  unfold rampsPass
  rw [List.filterMap_eq_nil_iff]
  intro ramp hramp
  rw [show c10L.elements.filter (fun e => decide (e.type = tRAMP)) = [c10ramp] from rfl]
    at hramp
  rcases (by simpa using hramp : ramp = c10ramp) with rfl
  have hAny : ((nearbyRoads c10L c10ramp).any fun road => isTouching road c10ramp) = true := by
    rw [show nearbyRoads c10L c10ramp = [c10road] from by
      unfold nearbyRoads
      rw [c10candRamp]
      rfl]
    simp [c10satT]
  rw [if_neg (by rw [hAny]; decide)]

theorem c10val : validateLayout c10L =
    [⟨"global", none, vCONN, needEntranceMsg⟩, ⟨"global", none, vCONN, needExitMsg⟩] := by
  unfold validateLayout
  rw [c10bounds, c10overlap, c10place, gatesPass_nil c10L rfl, c10ramps,
    connectivityPass_nil c10L rfl,
    show globalPass c10L = [⟨"global", none, vCONN, needEntranceMsg⟩,
      ⟨"global", none, vCONN, needExitMsg⟩] from rfl]
  rfl

/-- Counterexample to C10: all rotations are 0, yet the height-0 ramp "a"
receives no violation at all — the distant height-0 road on the same line
satisfies the adjacency SAT test (silencing the ramp-road `connectivity`
rule) while the padded-AABB prefilter of `isOverlapping` rejects the pair
(silencing the `placement` rule). -/
theorem claim_C10_counterexample :
    (∀ el ∈ c10L.elements, rotationD el = 0) ∧
    c10ramp ∈ c10L.elements ∧ c10ramp.type = tRAMP ∧
    (validateLayout c10L).filter (fun v => decide (v.elementId = c10ramp.id)) = [] := by
  refine ⟨?_, List.mem_cons_of_mem _ (List.mem_cons_self _ _), rfl, ?_⟩
  · intro el hel
    rcases (by simpa [show c10L.elements = [c10road, c10ramp] from rfl] using hel :
      el = c10road ∨ el = c10ramp) with rfl | rfl <;> rfl
  · rw [c10val]
    rfl

/-- For unrotated elements of positive size, a true SAT test forces the
padded-AABB prefilter of `isOverlapping` to pass as well. -/
theorem isOverlapping_of_touching (road item : LayoutElement)
    (hr : rotationD road = 0) (hi : rotationD item = 0)
    (hwr : 0 < road.width) (hhr : 0 < road.height)
    (hwi : 0 < item.width) (hhi : 0 < item.height)
    (ht : isTouching road item = true) : isOverlapping road item = true := by
  unfold isTouching at ht
  unfold isOverlapping
  rw [ht, Bool.and_true]
  rw [isPoly_box_iff road item hr hi hwr hhr hwi hhi] at ht
  obtain ⟨h1, h2, h3, h4⟩ := ht
  rw [decide_eq_true_eq]
  exact ⟨by linarith, by linarith, by linarith, by linarith⟩

/-- C10 (amended): in a layout whose elements are all unrotated *and of
strictly positive size*, every ramp receives a `placement_error` (when some
nearby road passes the SAT test, which then also passes the padded-AABB
prefilter) or a `connectivity_error` (when no nearby road touches it).
Without the positivity requirement the property fails — see the
counterexample. -/
theorem claim_C10 (L : ParkingLayout)
    (hrot : ∀ el ∈ L.elements, rotationD el = 0)
    (hpos : ∀ el ∈ L.elements, 0 < el.width ∧ 0 < el.height)
    (ramp : LayoutElement) (hmem : ramp ∈ L.elements) (hty : ramp.type = tRAMP) :
    ∃ v ∈ validateLayout L, v.elementId = ramp.id ∧
      (v.type = vPLACEMENT ∨ v.type = vCONN) := by
  rcases hAny : ((nearbyRoads L ramp).any fun road => isTouching road ramp) with _ | _
  · refine ⟨⟨ramp.id, none, vCONN, "Ramp must connect to a Driving Lane."⟩, ?_, rfl, Or.inr rfl⟩
    have hr : (⟨ramp.id, none, vCONN, "Ramp must connect to a Driving Lane."⟩ :
        ConstraintViolation) ∈ rampsPass L := by
      unfold rampsPass
      refine List.mem_filterMap.mpr ⟨ramp,
        List.mem_filter.mpr ⟨hmem, by rw [hty]; decide⟩, ?_⟩
      have hsome : (if (! ((nearbyRoads L ramp).any fun road => isTouching road ramp)) = true
          then some (⟨ramp.id, none, vCONN, "Ramp must connect to a Driving Lane."⟩ :
            ConstraintViolation)
          else none) =
          some ⟨ramp.id, none, vCONN, "Ramp must connect to a Driving Lane."⟩ := by
        rw [if_pos (by rw [hAny]; rfl)]
      exact hsome
    unfold validateLayout
    simp only [List.mem_append]
    tauto
  · obtain ⟨road, hroadmem, htouch⟩ := List.any_eq_true.mp hAny
    have hroadels : road ∈ L.elements := by
      unfold nearbyRoads at hroadmem
      exact (mem_getPotentialCollisions.mp (List.mem_filter.mp hroadmem).1).1
    have hov : isOverlapping road ramp = true :=
      isOverlapping_of_touching road ramp (hrot road hroadels) (hrot ramp hmem)
        (hpos road hroadels).1 (hpos road hroadels).2
        (hpos ramp hmem).1 (hpos ramp hmem).2 htouch
    refine ⟨⟨ramp.id, none, vPLACEMENT, ramp.type ++ " must NOT overlap a Driving Lane."⟩,
      ?_, rfl, Or.inl rfl⟩
    have hp : (⟨ramp.id, none, vPLACEMENT, ramp.type ++ " must NOT overlap a Driving Lane."⟩ :
        ConstraintViolation) ∈ placementPass L := by
      unfold placementPass
      have hB : (⟨ramp.id, none, vPLACEMENT,
            ramp.type ++ " must NOT overlap a Driving Lane."⟩ : ConstraintViolation) ∈
          (if ramp.type ∈ itemsNotOnRoad then
            (if ((nearbyRoads L ramp).any fun road => isOverlapping road ramp) ∧
                ramp.type ≠ tSIDEWALK then
              [⟨ramp.id, none, vPLACEMENT, ramp.type ++ " must NOT overlap a Driving Lane."⟩]
            else [])
          else []) := by
        rw [if_pos (by rw [hty]; decide),
          if_pos ⟨List.any_eq_true.mpr ⟨road, hroadmem, hov⟩, by rw [hty]; decide⟩]
        exact List.mem_singleton.mpr rfl
      exact List.mem_flatMap.mpr ⟨ramp, hmem, List.mem_append_right _ hB⟩
    unfold validateLayout
    simp only [List.mem_append]
    tauto

/-- Lone ramp of the C10 witness layout. -/
def c10wramp : LayoutElement := ⟨"a", tRAMP, 10, 10, 10, 10, some 0⟩

/-- The C10 witness layout: one positively-sized unrotated ramp, no roads. -/
def c10wL : ParkingLayout := ⟨200, 200, [c10wramp]⟩

/-- Witness for the amended C10: the lone ramp receives a violation. -/
theorem claim_C10_witness :
    ∃ v ∈ validateLayout c10wL, v.elementId = c10wramp.id ∧
      (v.type = vPLACEMENT ∨ v.type = vCONN) :=
  claim_C10 c10wL
    (fun el hel => by
      rcases (by simpa [show c10wL.elements = [c10wramp] from rfl] using hel :
        el = c10wramp) with rfl
      rfl)
    (fun el hel => by
      rcases (by simpa [show c10wL.elements = [c10wramp] from rfl] using hel :
        el = c10wramp) with rfl
      exact ⟨by norm_num [c10wramp], by norm_num [c10wramp]⟩)
    c10wramp (List.mem_cons_self _ _) rfl

end Parking
